import Mathlib

/-! # NetworkStateHandler (chromeos/network/network_state_handler.cc)

A shallow embedding of `chromeos::NetworkStateHandler`: the two managed lists,
the two technology sets and the stored active network path, together with the
delegate entry points that reconcile them with the data delivered by the
transport, and the observer notifications they broadcast.

Heap objects are modelled by value.  A `ManagedState*` held in a managed list is
the record stored at that position of the list; a notification that hands a
pointer to the observers records the value the pointee has at the moment of the
broadcast.  Broadcasts (`FOR_EACH_OBSERVER`) and calls into
`shill_property_handler_` are collected, in program order, in two logs that
every entry point returns next to the new handler state.
-/

namespace chromeos

/-! ## Data model -/

/-- The enum `ManagedState::ManagedType`. -/
inductive ManagedType where
  | MANAGED_TYPE_NETWORK
  | MANAGED_TYPE_DEVICE
  deriving DecidableEq, Repr

/-- Modelled from the spec: `base::Value` (base/values.h is not part of the
sources), the tagged value type of section 9, restricted to the scalar variants;
the handler only ever reads a value through `GetAsString`. -/
inductive Value where
  | null
  | boolean (b : Bool)
  | integer (i : Int)
  | string (s : String)
  deriving DecidableEq, Repr

/-- The call `value.GetAsString(&out)`: the string held by a string value; any
other value leaves the output argument untouched. -/
def Value.GetAsString : Value → Option String
  | Value.string s => some s
  | _ => none

/-- The idiom `std::string s; value.GetAsString(&s);` of the handler: `s` stays
empty when the value is not a string. -/
def Value.asString (v : Value) : String :=
  v.GetAsString.getD ""

/-- A `base::ListValue`, in iteration order. -/
abbrev ListValue := List Value

/-- A `base::DictionaryValue`, as the sequence of pairs its iterator yields. -/
abbrev DictionaryValue := List (String × Value)

/-- A `ManagedState` object (a `NetworkState` or a `DeviceState`).  The fields
the handler reads or writes through plain accessors are explicit; `props` stands
for the parsed properties kept by the subclass, of a type `P` that the handler
never inspects except through the methods collected in `External`. -/
structure ManagedState (P : Type) where
  managed_type : ManagedType
  path : String
  is_observed : Bool
  ip_address : String
  props : P
  deriving DecidableEq, Repr

/-- Modelled from the spec: the parts of the repository the handler calls that
are not among the sources: the constants of `service_constants.h` it compares
keys and types with, and the methods of `ManagedState`, `NetworkState` and
`DeviceState` (construction, the per-key property differ `PropertyChanged`, and
the accessors).  `PropertyChanged` returns the new parsed properties and the
`changed` verdict; it cannot touch `path`, `managed_type`, `is_observed`, or the
IP address, which is written by `set_ip_address` alone (section 4.2). -/
structure External (P : Type) where
  kIPConfigProperty : String
  kStateProperty : String
  kTypeEthernet : String
  Create : ManagedType → String → P
  PropertyChanged : ManagedType → P → String → Value → P × Bool
  type : P → String
  IsConnectedState : P → Bool
  IsConnectingState : P → Bool
  device_path : P → String
  mac_address : P → String

/-- Modelled from the spec: the one query the handler makes of the transport
(`internal::ShillPropertyHandler`, not among the sources): whether the transport
currently observes a path. -/
structure ShillPropertyHandler where
  IsObservingNetwork : String → Bool

/-- The calls the handler makes into `shill_property_handler_` that start work
in the transport. -/
inductive Request where
  | RequestScan
  | RequestProperties (type : ManagedType) (path : String)
  | RequestIPConfig (service_path : String) (ip_config_path : String)
  | SetTechnologyEnabled (technology : String) (enabled : Bool)
  deriving DecidableEq, Repr

/-- One broadcast to `observers_` (the methods of
`NetworkStateHandlerObserver`), with the value of its argument at the moment of
the broadcast; `none` is a `NULL` network. -/
inductive Event (P : Type) where
  | NetworkManagerChanged
  | NetworkListChanged (network_list : List (ManagedState P))
  | DeviceListChanged
  | ActiveNetworkChanged (network : Option (ManagedState P))
  | NetworkServiceChanged (network : ManagedState P)
  | ActiveNetworkStateChanged (network : ManagedState P)
  deriving DecidableEq, Repr

/-- The member variables of `NetworkStateHandler`. -/
structure NetworkStateHandler (P : Type) where
  network_list_ : List (ManagedState P)
  device_list_ : List (ManagedState P)
  available_technologies_ : Finset String
  enabled_technologies_ : Finset String
  active_network_path_ : String

/-- What a call of a delegate entry point leaves behind: the handler state, the
observer broadcasts and the transport calls it made, each in program order. -/
structure Outcome (P : Type) where
  state : NetworkStateHandler P
  events : List (Event P)
  requests : List Request

namespace ManagedState

variable {P : Type}

/-- The factory `ManagedState::Create(type, path)`: a new, unobserved object. -/
def Create (X : External P) (type : ManagedType) (path : String) : ManagedState P :=
  { managed_type := type, path := path, is_observed := false, ip_address := "",
    props := X.Create type path }

/-- The setter `set_is_observed`. -/
def set_is_observed (m : ManagedState P) (b : Bool) : ManagedState P :=
  { m with is_observed := b }

/-- The setter `NetworkState::set_ip_address`. -/
def set_ip_address (m : ManagedState P) (ip_address : String) : ManagedState P :=
  { m with ip_address := ip_address }

/-- The virtual `PropertyChanged(key, value)`: the object after the call and the
verdict of the differ. -/
def PropertyChanged (X : External P) (m : ManagedState P) (key : String) (value : Value) :
    ManagedState P × Bool :=
  ({ m with props := (X.PropertyChanged m.managed_type m.props key value).1 },
   (X.PropertyChanged m.managed_type m.props key value).2)

/-- The accessor `type()`. -/
def type (X : External P) (m : ManagedState P) : String := X.type m.props

/-- The predicate `NetworkState::IsConnectedState()`. -/
def IsConnectedState (X : External P) (m : ManagedState P) : Bool := X.IsConnectedState m.props

/-- The predicate `NetworkState::IsConnectingState()`. -/
def IsConnectingState (X : External P) (m : ManagedState P) : Bool := X.IsConnectingState m.props

/-- The accessor `NetworkState::device_path()`. -/
def device_path (X : External P) (m : ManagedState P) : String := X.device_path m.props

/-- The accessor `DeviceState::mac_address()`. -/
def mac_address (X : External P) (m : ManagedState P) : String := X.mac_address m.props

end ManagedState

/-- The `char`s of a `std::string`.  The strings of the handler are UTF-8 text
and are kept as `String`; `size()` and `operator[]` count and index the bytes of
that text, not its code points. -/
def stdString (s : String) : List UInt8 :=
  s.toUTF8.data.toList

/-- Modelled from the spec: `StringToUpperASCII` of base/string_util.h (not among
the sources), which replaces every ASCII lower-case letter of a string by its
upper-case letter and keeps every other `char`.  On UTF-8 text the bytes of a
character beyond ASCII are all above the letters, so doing this byte by byte is
the same as doing it code point by code point. -/
def StringToUpperASCII (s : String) : String :=
  String.mk (s.data.map Char.toUpper)

namespace NetworkStateHandler

variable {P : Type}

/-! ## Queries -/

/-- The method `TechnologyAvailable`. -/
def TechnologyAvailable (self : NetworkStateHandler P) (technology : String) : Bool :=
  decide (technology ∈ self.available_technologies_)

/-- The method `TechnologyEnabled`. -/
def TechnologyEnabled (self : NetworkStateHandler P) (technology : String) : Bool :=
  decide (technology ∈ self.enabled_technologies_)

/-- The private `GetModifiableManagedState`: the position of the first element
of the list whose path is `path` (the pointer the C++ returns), `none` for
`NULL`. -/
def GetModifiableManagedState : List (ManagedState P) → String → Option Nat
  | [], _ => none
  | managed :: rest, path =>
    if managed.path = path then some 0
    else (GetModifiableManagedState rest path).map (· + 1)

/-- The object a pointer returned by `GetModifiableManagedState` points to. -/
def deref (managed_list : List (ManagedState P)) (managed : Option Nat) :
    Option (ManagedState P) :=
  managed.bind (fun i => managed_list[i]?)

/-- The method `GetDeviceState`.  The downcast `AsDeviceState()` is the identity:
`device_list_` only ever receives objects made by `Create` with the type of the
list (`UpdateManagedList_wellTyped`), which is what the `DCHECK`s after the
downcasts of this file record. -/
def GetDeviceState (self : NetworkStateHandler P) (device_path : String) :
    Option (ManagedState P) :=
  deref self.device_list_ (GetModifiableManagedState self.device_list_ device_path)

/-- The method `GetNetworkState`.  The downcast `AsNetworkState()` is the
identity on the elements of `network_list_`, as for `GetDeviceState`. -/
def GetNetworkState (self : NetworkStateHandler P) (service_path : String) :
    Option (ManagedState P) :=
  deref self.network_list_ (GetModifiableManagedState self.network_list_ service_path)

/-- The loop of `GetDeviceStateByType`. -/
def GetDeviceStateByType.loop (X : External P) (type : String) :
    List (ManagedState P) → Option (ManagedState P)
  | [] => none
  | device :: rest =>
    if device.type X = type then some device else GetDeviceStateByType.loop X type rest

/-- The method `GetDeviceStateByType`. -/
def GetDeviceStateByType (X : External P) (self : NetworkStateHandler P) (type : String) :
    Option (ManagedState P) :=
  GetDeviceStateByType.loop X type self.device_list_

/-- The method `ActiveNetwork`. -/
def ActiveNetwork (X : External P) (self : NetworkStateHandler P) : Option (ManagedState P) :=
  match self.network_list_ with
  | [] => none
  | network :: _ => if !network.IsConnectedState X then none else some network

/-- The loop of `ConnectedNetworkByType`. -/
def ConnectedNetworkByType.loop (X : External P) (type : String) :
    List (ManagedState P) → Option (ManagedState P)
  | [] => none
  | network :: rest =>
    if !network.IsConnectedState X then none
    else if network.type X = type then some network
    else ConnectedNetworkByType.loop X type rest

/-- The method `ConnectedNetworkByType`. -/
def ConnectedNetworkByType (X : External P) (self : NetworkStateHandler P) (type : String) :
    Option (ManagedState P) :=
  ConnectedNetworkByType.loop X type self.network_list_

/-- The loop of `ConnectingNetworkByType`. -/
def ConnectingNetworkByType.loop (X : External P) (type : String) :
    List (ManagedState P) → Option (ManagedState P)
  | [] => none
  | network :: rest =>
    if network.IsConnectedState X then ConnectingNetworkByType.loop X type rest
    else if !network.IsConnectingState X then none
    else if network.type X = type ∨ (type.isEmpty ∧ type ≠ X.kTypeEthernet) then some network
    else ConnectingNetworkByType.loop X type rest

/-- The method `ConnectingNetworkByType`. -/
def ConnectingNetworkByType (X : External P) (self : NetworkStateHandler P) (type : String) :
    Option (ManagedState P) :=
  ConnectingNetworkByType.loop X type self.network_list_

/-- The method `HardwareAddressForType`. -/
def HardwareAddressForType (X : External P) (self : NetworkStateHandler P) (type : String) :
    String :=
  let result :=
    match ConnectedNetworkByType X self type with
    | some network =>
      match self.GetDeviceState (network.device_path X) with
      | some device => device.mac_address X
      | none => ""
    | none => ""
  StringToUpperASCII result

/-- The loop of `FormattedHardwareAddressForType`: the first argument holds the
`char`s `address[i]`, `address[i + 1]`, ... still to be visited, the second is
the index `i`, the third is `result`. -/
def FormattedHardwareAddressForType.loop : List UInt8 → Nat → List UInt8 → List UInt8
  | [], _, result => result
  | c :: rest, i, result =>
    let result := if i ≠ 0 ∧ i % 2 = 0 then result ++ [':'.toUInt8] else result
    FormattedHardwareAddressForType.loop rest (i + 1) (result ++ [c])

/-- The method `FormattedHardwareAddressForType`.  `address.size()` and
`address[i]` count and index the `char`s of the `std::string`, so the address
is taken as its bytes, and the returned `std::string` is given by its bytes
too (it need not be valid UTF-8 when the address is not ASCII). -/
def FormattedHardwareAddressForType (X : External P) (self : NetworkStateHandler P)
    (type : String) : List UInt8 :=
  let address := stdString (HardwareAddressForType X self type)
  if address.length % 2 ≠ 0 then address
  else FormattedHardwareAddressForType.loop address 0 []

/-- The call `list->clear()` on a vector. -/
def clear (_ : List (ManagedState P)) : List (ManagedState P) := []

/-- The method `GetNetworkList(list)`: the new content of `*list` and the
transport call it makes. -/
def GetNetworkList (self : NetworkStateHandler P) (list : List (ManagedState P)) :
    List (ManagedState P) × List Request :=
  let list := clear list
  (self.network_list_.foldl (fun list network => list ++ [network]) list, [Request.RequestScan])

/-- The method `GetNetworkList(list)` as a step of the handler.  The method is
`const` and notifies nobody: the handler state after the call is the state it
was called on; next to it stand the transport call and the new content of
`*list`. -/
def GetNetworkList.call (self : NetworkStateHandler P) (list : List (ManagedState P)) :
    Outcome P × List (ManagedState P) :=
  ({ state := self, events := [], requests := (self.GetNetworkList list).2 },
   (self.GetNetworkList list).1)

/-- The private `GetManagedList(type)`: the list a managed type is kept in. -/
def GetManagedList (self : NetworkStateHandler P) : ManagedType → List (ManagedState P)
  | ManagedType.MANAGED_TYPE_NETWORK => self.network_list_
  | ManagedType.MANAGED_TYPE_DEVICE => self.device_list_

/-- Assignment through the pointer returned by `GetManagedList(type)`. -/
def setManagedList (self : NetworkStateHandler P) (type : ManagedType)
    (managed_list : List (ManagedState P)) : NetworkStateHandler P :=
  match type with
  | ManagedType.MANAGED_TYPE_NETWORK => { self with network_list_ := managed_list }
  | ManagedType.MANAGED_TYPE_DEVICE => { self with device_list_ := managed_list }

/-! ## ShillPropertyHandler::Delegate overrides -/

/-- The local variables of `UpdateManagedList` that live across the iterations
of its second loop; `managed_map` is the `std::map` from path to object. -/
structure UpdateLoop (P : Type) where
  managed_map : String → Option (ManagedState P)
  managed_list : List (ManagedState P)
  requests : List Request

/-- The first loop of `UpdateManagedList`: `managed_map[managed->path()] = managed`
for every element in turn. -/
def UpdateManagedList.createMap (managed_list : List (ManagedState P)) :
    String → Option (ManagedState P) :=
  managed_list.foldl (fun managed_map managed => Function.update managed_map managed.path (some managed))
    (fun _ => none)

/-- One iteration of the second loop of `UpdateManagedList`.  The pointer pushed
onto the list aliases the object that `set_is_observed` then modifies, so the
list receives the object as it is at the end of the iteration. -/
def UpdateManagedList.body (X : External P) (shill : ShillPropertyHandler) (type : ManagedType)
    (st : UpdateLoop P) (entry : Value) : UpdateLoop P :=
  let path := entry.asString
  let is_observing := shill.IsObservingNetwork path
  match st.managed_map path with
  | none =>
    let managed := ManagedState.Create X type path
    let managed := if is_observing then managed.set_is_observed true else managed
    { managed_map := st.managed_map
      managed_list := st.managed_list ++ [managed]
      requests := st.requests ++ [Request.RequestProperties type path] }
  | some found =>
    let request_properties := !found.is_observed && is_observing
    let managed := if is_observing then found.set_is_observed true else found
    { managed_map := Function.update st.managed_map path none
      managed_list := st.managed_list ++ [managed]
      requests :=
        if request_properties then st.requests ++ [Request.RequestProperties type path]
        else st.requests }

/-- The method `UpdateManagedList(type, entries)`. -/
def UpdateManagedList (X : External P) (shill : ShillPropertyHandler)
    (self : NetworkStateHandler P) (type : ManagedType) (entries : ListValue) : Outcome P :=
  let managed_map := UpdateManagedList.createMap (self.GetManagedList type)
  let st := entries.foldl (UpdateManagedList.body X shill type)
    { managed_map := managed_map, managed_list := [], requests := [] }
  { state := self.setManagedList type st.managed_list, events := [], requests := st.requests }

/-- The method `UpdateAvailableTechnologies`. -/
def UpdateAvailableTechnologies (self : NetworkStateHandler P) (technologies : ListValue) :
    NetworkStateHandler P :=
  { self with
    available_technologies_ :=
      technologies.foldl (fun s technology => insert technology.asString s) ∅ }

/-- The method `UpdateEnabledTechnologies`. -/
def UpdateEnabledTechnologies (self : NetworkStateHandler P) (technologies : ListValue) :
    NetworkStateHandler P :=
  { self with
    enabled_technologies_ :=
      technologies.foldl (fun s technology => insert technology.asString s) ∅ }

/-- The value of `ParseNetworkServiceProperty`, with what the call did on the
way: the network object after the call, the broadcasts and the transport
calls. -/
structure Parsed (P : Type) where
  network : ManagedState P
  property_changed : Bool
  events : List (Event P)
  requests : List Request

/-- The private `ParseNetworkServiceProperty(network, key, value)`. -/
def ParseNetworkServiceProperty (X : External P) (self : NetworkStateHandler P)
    (network : ManagedState P) (key : String) (value : Value) : Parsed P :=
  if key = X.kIPConfigProperty then
    let ip_config_path := value.asString
    { network := network, property_changed := false, events := [],
      requests := [Request.RequestIPConfig network.path ip_config_path] }
  else
    let r := network.PropertyChanged X key value
    if r.2 then
      { network := r.1, property_changed := true,
        events :=
          if r.1.path = self.active_network_path_ ∧ key = X.kStateProperty then
            [Event.ActiveNetworkStateChanged r.1]
          else [],
        requests := [] }
    else
      { network := r.1, property_changed := false, events := [], requests := [] }

/-- The local state of the loop of `UpdateManagedStateProperties`: the object
`managed` points to, the flag `network_property_changed`, and the two logs. -/
structure PropertiesLoop (P : Type) where
  managed : ManagedState P
  network_property_changed : Bool
  events : List (Event P)
  requests : List Request

/-- One iteration of the loop of `UpdateManagedStateProperties`. -/
def UpdateManagedStateProperties.body (X : External P) (self : NetworkStateHandler P)
    (type : ManagedType) (st : PropertiesLoop P) (kv : String × Value) : PropertiesLoop P :=
  if type = ManagedType.MANAGED_TYPE_NETWORK then
    let r := ParseNetworkServiceProperty X self st.managed kv.1 kv.2
    { managed := r.network
      network_property_changed := if r.property_changed then true else st.network_property_changed
      events := st.events ++ r.events
      requests := st.requests ++ r.requests }
  else
    { st with managed := (st.managed.PropertyChanged X kv.1 kv.2).1 }

/-- The method `UpdateManagedStateProperties(type, path, properties)`. -/
def UpdateManagedStateProperties (X : External P) (self : NetworkStateHandler P)
    (type : ManagedType) (path : String) (properties : DictionaryValue) : Outcome P :=
  match GetModifiableManagedState (self.GetManagedList type) path with
  | none => { state := self, events := [], requests := [] }
  | some i =>
    match (self.GetManagedList type)[i]? with
    | none => { state := self, events := [], requests := [] }
    | some managed =>
      let st := properties.foldl (UpdateManagedStateProperties.body X self type)
        { managed := managed, network_property_changed := false, events := [], requests := [] }
      { state := self.setManagedList type ((self.GetManagedList type).set i st.managed)
        events :=
          if st.network_property_changed then
            st.events ++ [Event.NetworkServiceChanged st.managed]
          else st.events
        requests := st.requests }

/-- The method `UpdateNetworkServiceProperty(service_path, key, value)`. -/
def UpdateNetworkServiceProperty (X : External P) (self : NetworkStateHandler P)
    (service_path : String) (key : String) (value : Value) : Outcome P :=
  match GetModifiableManagedState self.network_list_ service_path with
  | none => { state := self, events := [], requests := [] }
  | some i =>
    match self.network_list_[i]? with
    | none => { state := self, events := [], requests := [] }
    | some network =>
      let r := ParseNetworkServiceProperty X self network key value
      { state := { self with network_list_ := self.network_list_.set i r.network }
        events :=
          if r.property_changed then r.events ++ [Event.NetworkServiceChanged r.network]
          else r.events
        requests := r.requests }

/-- The method `UpdateNetworkServiceIPAddress(service_path, ip_address)`. -/
def UpdateNetworkServiceIPAddress (self : NetworkStateHandler P)
    (service_path : String) (ip_address : String) : Outcome P :=
  match GetModifiableManagedState self.network_list_ service_path with
  | none => { state := self, events := [], requests := [] }
  | some i =>
    match self.network_list_[i]? with
    | none => { state := self, events := [], requests := [] }
    | some network =>
      { state := { self with
                   network_list_ := self.network_list_.set i (network.set_ip_address ip_address) }
        events := [Event.NetworkServiceChanged (network.set_ip_address ip_address)]
        requests := [] }

/-- The method `ManagerPropertyChanged`. -/
def ManagerPropertyChanged (self : NetworkStateHandler P) : Outcome P :=
  { state := self, events := [Event.NetworkManagerChanged], requests := [] }

/-- The method `ManagedStateListChanged(type)`. -/
def ManagedStateListChanged (self : NetworkStateHandler P) (type : ManagedType) : Outcome P :=
  match type with
  | ManagedType.MANAGED_TYPE_NETWORK =>
    let r := self.GetNetworkList []
    let new_active_network := self.network_list_.head?
    let new_active_network_path :=
      match new_active_network with
      | some network => network.path
      | none => ""
    if new_active_network_path ≠ self.active_network_path_ then
      { state := { self with active_network_path_ := new_active_network_path }
        events := [Event.NetworkListChanged r.1, Event.ActiveNetworkChanged new_active_network]
        requests := r.2 }
    else
      { state := self, events := [Event.NetworkListChanged r.1], requests := r.2 }
  | ManagedType.MANAGED_TYPE_DEVICE =>
    { state := self, events := [Event.DeviceListChanged], requests := [] }

/-- The managed-list update cycle for services that the transport runs when
the list of services arrives: `UpdateManagedList(NETWORK, entries)` followed by
`ManagedStateListChanged(NETWORK)`. -/
def ManagedListUpdateCycle (X : External P) (shill : ShillPropertyHandler)
    (self : NetworkStateHandler P) (entries : ListValue) : Outcome P :=
  let r1 := UpdateManagedList X shill self ManagedType.MANAGED_TYPE_NETWORK entries
  let r2 := ManagedStateListChanged r1.state ManagedType.MANAGED_TYPE_NETWORK
  { state := r2.state, events := r1.events ++ r2.events, requests := r1.requests ++ r2.requests }

end NetworkStateHandler

/-! ## A concrete reading of the absent classes -/

/-- Modelled from the spec: the `properties` of a ManagedEntity (section 3), a
mapping from property name to value, as an association list with unique keys. -/
abbrev PropertyBag := List (String × Value)

/-- The value stored under a key. -/
def PropertyBag.get (props : PropertyBag) (key : String) : Option Value :=
  (props.find? (fun kv => kv.1 = key)).map (fun kv => kv.2)

/-- Store a value under a key, replacing the one stored before. -/
def PropertyBag.put (props : PropertyBag) (key : String) (value : Value) : PropertyBag :=
  props.filter (fun kv => kv.1 ≠ key) ++ [(key, value)]

/-- The string stored under a key, empty when there is none. -/
def PropertyBag.getString (props : PropertyBag) (key : String) : String :=
  match props.get key with
  | some v => v.asString
  | none => ""

/-- Modelled from the spec: the differ of section 4.2 (a value is stored and
reported changed when it differs from the stored one or the key is absent), the
accessors of section 3 read from the property bag under the keys `Type`,
`State`, `Device` and `Address`, the connection states of section 3 with
`ready` and `online` as the connected ones and `association` and
`configuration` as the connecting ones, and the three constants of
`service_constants.h`.  It instantiates `External` wherever a concrete run of
the handler is evaluated. -/
def specExternal : External PropertyBag where
  kIPConfigProperty := "IPConfig"
  kStateProperty := "State"
  kTypeEthernet := "ethernet"
  Create := fun _ _ => []
  PropertyChanged := fun _ props key value =>
    if props.get key = some value then (props, false) else (props.put key value, true)
  type := fun props => props.getString "Type"
  IsConnectedState := fun props =>
    props.getString "State" = "ready" || props.getString "State" = "online"
  IsConnectingState := fun props =>
    props.getString "State" = "association" || props.getString "State" = "configuration"
  device_path := fun props => props.getString "Device"
  mac_address := fun props => props.getString "Address"

/-- A transport that observes the paths of a given list and no other. -/
def shillObserving (paths : List String) : ShillPropertyHandler where
  IsObservingNetwork := fun path => decide (path ∈ paths)

/-- A network object with the given path, observation flag and properties. -/
def mkNetwork (path : String) (is_observed : Bool) (props : PropertyBag) :
    ManagedState PropertyBag :=
  { managed_type := ManagedType.MANAGED_TYPE_NETWORK, path := path, is_observed := is_observed,
    ip_address := "", props := props }

/-- A handler that holds the given services, no devices and no technologies. -/
def mkHandler (network_list : List (ManagedState PropertyBag)) (active_network_path : String) :
    NetworkStateHandler PropertyBag :=
  { network_list_ := network_list, device_list_ := [], available_technologies_ := ∅,
    enabled_technologies_ := ∅, active_network_path_ := active_network_path }

/-- A wifi service at `/service/1`, not yet observed. -/
def wifi1 : ManagedState PropertyBag :=
  mkNetwork "/service/1" false [("Type", Value.string "wifi")]

/-- A cellular service at `/service/2`, already observed. -/
def cellular2 : ManagedState PropertyBag :=
  mkNetwork "/service/2" true [("Type", Value.string "cellular")]

/-- A connected service at `/service/1`. -/
def online1 : ManagedState PropertyBag :=
  mkNetwork "/service/1" true [("State", Value.string "online")]

/-- A connecting service at `/service/2`. -/
def association2 : ManagedState PropertyBag :=
  mkNetwork "/service/2" true [("State", Value.string "association")]

/-- An idle service at `/service/1`. -/
def idle1 : ManagedState PropertyBag :=
  mkNetwork "/service/1" true [("State", Value.string "idle")]

/-- A connected service at `/service/2`. -/
def online2 : ManagedState PropertyBag :=
  mkNetwork "/service/2" true [("State", Value.string "online")]

/-- A connected service at `/service/1`, in state `ready`. -/
def ready1 : ManagedState PropertyBag :=
  mkNetwork "/service/1" true [("State", Value.string "ready")]

/-- A device object with the given path and properties. -/
def mkDevice (path : String) (props : PropertyBag) : ManagedState PropertyBag :=
  { managed_type := ManagedType.MANAGED_TYPE_DEVICE, path := path, is_observed := false,
    ip_address := "", props := props }

/-- A handler that holds the given services and devices and no technologies. -/
def mkHandlerWithDevices (network_list device_list : List (ManagedState PropertyBag)) :
    NetworkStateHandler PropertyBag :=
  { network_list_ := network_list, device_list_ := device_list, available_technologies_ := ∅,
    enabled_technologies_ := ∅, active_network_path_ := "" }

/-- A connected wifi service at `/service/1` on the device `/device/1`. -/
def wifiOnDevice1 : ManagedState PropertyBag :=
  mkNetwork "/service/1" true
    [("State", Value.string "online"), ("Type", Value.string "wifi"),
     ("Device", Value.string "/device/1")]

/-- The wifi device `/device/1` with a lower-case hardware address. -/
def device1 : ManagedState PropertyBag :=
  mkDevice "/device/1" [("Type", Value.string "wifi"), ("Address", Value.string "aabbccddeeff")]

/-- A connecting ethernet service at `/service/1`. -/
def ethernetConnecting1 : ManagedState PropertyBag :=
  mkNetwork "/service/1" true
    [("State", Value.string "association"), ("Type", Value.string "ethernet")]

/-- A connected wifi service at `/service/2`. -/
def wifiOnline2 : ManagedState PropertyBag :=
  mkNetwork "/service/2" true [("State", Value.string "online"), ("Type", Value.string "wifi")]

/-- A connecting wifi service at `/service/3`. -/
def association3 : ManagedState PropertyBag :=
  mkNetwork "/service/3" true
    [("State", Value.string "association"), ("Type", Value.string "wifi")]

/-- A wifi device at `/device/1` whose address is two two-byte characters
(`U+00E9` twice, the bytes `C3 A9 C3 A9`). -/
def deviceTwoByte1 : ManagedState PropertyBag :=
  mkDevice "/device/1" [("Type", Value.string "wifi"), ("Address", Value.string "éé")]

/-! ## Vocabulary of the statements -/

namespace NetworkStateHandler

variable {P : Type}

def KeyedByPath (managed_map : String → Option (ManagedState P)) : Prop :=
  ∀ k v, managed_map k = some v → v.path = k

/-- The object the second loop appends for a path: the one found in the map, or
a new one, marked observed when the transport observes the path. -/
def UpdateManagedList.managedFor (X : External P) (shill : ShillPropertyHandler)
    (type : ManagedType) (found : Option (ManagedState P)) (path : String) : ManagedState P :=
  if shill.IsObservingNetwork path then
    ((found.getD (ManagedState.Create X type path)).set_is_observed true)
  else found.getD (ManagedState.Create X type path)

/-- The object that `GetModifiableManagedState(GetManagedList(type), path)`
points to: the lookup by path in the list of a managed type. -/
def GetManagedState (self : NetworkStateHandler P) (type : ManagedType) (path : String) :
    Option (ManagedState P) :=
  deref (self.GetManagedList type) (GetModifiableManagedState (self.GetManagedList type) path)

/-- The condition under which the second loop of `UpdateManagedList` ends an
iteration with `request_properties` set, given what the map lookup found. -/
def UpdateManagedList.needsProperties (shill : ShillPropertyHandler)
    (found : Option (ManagedState P)) (path : String) : Bool :=
  match found with
  | none => true
  | some managed => !managed.is_observed && shill.IsObservingNetwork path

/-- A record whose observation flag has been raised when `b` holds and which is
otherwise untouched. -/
def raiseObserved (managed : ManagedState P) (b : Bool) : ManagedState P :=
  { managed with is_observed := managed.is_observed || b }

/-- The condition of the property fetch, read off the list before the update:
the path is not in the list, or an object of the list with that path is not yet
observed while the transport observes the path. -/
def fetchCondition (shill : ShillPropertyHandler) (managed_list : List (ManagedState P))
    (path : String) : Bool :=
  decide (path ∉ managed_list.map (fun managed => managed.path)) ||
    managed_list.any (fun managed =>
      decide (managed.path = path) && !managed.is_observed && shill.IsObservingNetwork path)

/-- The ordering invariant of the services table: no service in a connecting
state stands before a service in a connected state, and no service that is
neither connected nor connecting stands before a connecting one; that is, every
connected service precedes every connecting service, and every connecting
service precedes every other service. -/
def ServicesOrdered (X : External P) (network_list : List (ManagedState P)) : Prop :=
  network_list.Pairwise (fun a b =>
    ¬ (a.IsConnectingState X = true ∧ b.IsConnectedState X = true) ∧
    ¬ ((a.IsConnectedState X = false ∧ a.IsConnectingState X = false) ∧
        b.IsConnectingState X = true))

instance (X : External P) (network_list : List (ManagedState P)) :
    Decidable (ServicesOrdered X network_list) := by
  unfold ServicesOrdered
  infer_instance

/-- The entity the handler has cached for a service path before an update: the
one the services table holds, or a newly created object when there is none. -/
def cachedOrNew (X : External P) (self : NetworkStateHandler P) (path : String) :
    ManagedState P :=
  (self.GetNetworkState path).getD
    (ManagedState.Create X ManagedType.MANAGED_TYPE_NETWORK path)

/-- Whether a broadcast is `ActiveNetworkChanged`. -/
def Event.isActiveNetworkChanged : Event P → Bool
  | Event.ActiveNetworkChanged _ => true
  | _ => false

/-- Whether a broadcast is `NetworkServiceChanged`. -/
def Event.isNetworkServiceChanged : Event P → Bool
  | Event.NetworkServiceChanged _ => true
  | _ => false

/-- The path of the first entry of a services table, empty for an empty
table: the local `new_active_network_path` of `ManagedStateListChanged`. -/
def firstPath (network_list : List (ManagedState P)) : String :=
  match network_list.head? with
  | some network => network.path
  | none => ""

/-- Whether the differ reports at least one pair of a property set as changed
when the pairs are applied to an entity in order; a pair under the
IP-configuration key is not passed to the differ. -/
def anyReportedChanged (X : External P) : ManagedState P → DictionaryValue → Bool
  | _, [] => false
  | managed, (key, value) :: rest =>
    if key = X.kIPConfigProperty then anyReportedChanged X managed rest
    else (managed.PropertyChanged X key value).2 ||
      anyReportedChanged X (managed.PropertyChanged X key value).1 rest

/-- Whether a broadcast is `ActiveNetworkStateChanged`. -/
def Event.isActiveNetworkStateChanged : Event P → Bool
  | Event.ActiveNetworkStateChanged _ => true
  | _ => false

/-- The consecutive two-character groups of a sequence of `char`s; a sequence
of odd length ends in a group of one. -/
def twoCharGroups : List UInt8 → List (List UInt8)
  | a :: b :: rest => [a, b] :: twoCharGroups rest
  | [a] => [[a]]
  | [] => []

/-- The typing discipline of the two managed lists, which the `DCHECK`s after
the downcasts record: `network_list_` holds network objects and `device_list_`
holds device objects. -/
def WellTyped (self : NetworkStateHandler P) : Prop :=
  ∀ type : ManagedType, ∀ managed ∈ self.GetManagedList type, managed.managed_type = type

/-- The connected-first ordering of a services table: no service that is not in
a connected state stands before a connected one, that is, every connected
service precedes every service that is not connected. -/
def ConnectedFirst (X : External P) (network_list : List (ManagedState P)) : Prop :=
  network_list.Pairwise (fun a b => b.IsConnectedState X = true → a.IsConnectedState X = true)

instance (X : External P) (network_list : List (ManagedState P)) :
    Decidable (ConnectedFirst X network_list) := by
  unfold ConnectedFirst
  infer_instance

end NetworkStateHandler

/-! ## Lemmas and theorems -/

namespace NetworkStateHandler

variable {P : Type}

theorem GetManagedList_setManagedList (self : NetworkStateHandler P) (type : ManagedType)
    (l : List (ManagedState P)) : (self.setManagedList type l).GetManagedList type = l := by
  cases type <;> rfl

theorem keyedByPath_foldl_update (l : List (ManagedState P))
    (acc : String → Option (ManagedState P)) (h : KeyedByPath acc) :
    KeyedByPath (l.foldl (fun managed_map managed =>
      Function.update managed_map managed.path (some managed)) acc) := by
  induction l generalizing acc with
  | nil => simpa using h
  | cons m rest ih =>
    simp only [List.foldl_cons]
    apply ih
    intro k v hk
    by_cases hkm : k = m.path
    · subst hkm
      simp at hk
      rw [← hk]
    · rw [Function.update_noteq hkm] at hk
      exact h k v hk

theorem keyedByPath_createMap (l : List (ManagedState P)) :
    KeyedByPath (UpdateManagedList.createMap l) := by
  unfold UpdateManagedList.createMap
  apply keyedByPath_foldl_update
  intro k v hk
  simp at hk

theorem keyedByPath_erase (mm : String → Option (ManagedState P)) (h : KeyedByPath mm)
    (p : String) : KeyedByPath (Function.update mm p none) := by
  intro k v hk
  by_cases hkp : k = p
  · subst hkp
    simp at hk
  · rw [Function.update_noteq hkp] at hk
    exact h k v hk

theorem body_none (X : External P) (shill : ShillPropertyHandler) (type : ManagedType)
    (st : UpdateLoop P) (e : Value) (hf : st.managed_map e.asString = none) :
    UpdateManagedList.body X shill type st e =
      { managed_map := st.managed_map
        managed_list := st.managed_list ++ [UpdateManagedList.managedFor X shill type none e.asString]
        requests := st.requests ++ [Request.RequestProperties type e.asString] } := by
  simp [UpdateManagedList.body, hf, UpdateManagedList.managedFor]

theorem body_some (X : External P) (shill : ShillPropertyHandler) (type : ManagedType)
    (st : UpdateLoop P) (e : Value) (found : ManagedState P)
    (hf : st.managed_map e.asString = some found) :
    UpdateManagedList.body X shill type st e =
      { managed_map := Function.update st.managed_map e.asString none
        managed_list :=
          st.managed_list ++ [UpdateManagedList.managedFor X shill type (some found) e.asString]
        requests :=
          if !found.is_observed && shill.IsObservingNetwork e.asString then
            st.requests ++ [Request.RequestProperties type e.asString]
          else st.requests } := by
  simp [UpdateManagedList.body, hf, UpdateManagedList.managedFor]

theorem managedFor_path (X : External P) (shill : ShillPropertyHandler) (type : ManagedType)
    (found : Option (ManagedState P)) (path : String)
    (h : ∀ m, found = some m → m.path = path) :
    (UpdateManagedList.managedFor X shill type found path).path = path := by
  unfold UpdateManagedList.managedFor
  cases found with
  | none => by_cases ho : shill.IsObservingNetwork path <;>
      simp [ho, ManagedState.Create, ManagedState.set_is_observed]
  | some m =>
    have := h m rfl
    by_cases ho : shill.IsObservingNetwork path <;>
      simp [ho, ManagedState.set_is_observed, this]

theorem body_keyedByPath (X : External P) (shill : ShillPropertyHandler) (type : ManagedType)
    (st : UpdateLoop P) (e : Value) (h : KeyedByPath st.managed_map) :
    KeyedByPath (UpdateManagedList.body X shill type st e).managed_map := by
  cases hf : st.managed_map e.asString with
  | none => rw [body_none X shill type st e hf]; exact h
  | some found => rw [body_some X shill type st e found hf]; exact keyedByPath_erase _ h _

theorem body_paths (X : External P) (shill : ShillPropertyHandler) (type : ManagedType)
    (st : UpdateLoop P) (e : Value) (h : KeyedByPath st.managed_map) :
    (UpdateManagedList.body X shill type st e).managed_list.map (fun m => m.path) =
      st.managed_list.map (fun m => m.path) ++ [e.asString] := by
  cases hf : st.managed_map e.asString with
  | none =>
    rw [body_none X shill type st e hf]
    simp [managedFor_path]
  | some found =>
    rw [body_some X shill type st e found hf]
    have hp := h _ _ hf
    simp [managedFor_path X shill type (some found) e.asString (by intro m hm; cases hm; exact hp)]

theorem foldl_body_paths (X : External P) (shill : ShillPropertyHandler) (type : ManagedType)
    (entries : ListValue) (st : UpdateLoop P) (h : KeyedByPath st.managed_map) :
    (entries.foldl (UpdateManagedList.body X shill type) st).managed_list.map (fun m => m.path) =
      st.managed_list.map (fun m => m.path) ++ entries.map Value.asString := by
  induction entries generalizing st with
  | nil => simp
  | cons e es ih =>
    simp only [List.foldl_cons, List.map_cons]
    rw [ih _ (body_keyedByPath X shill type st e h), body_paths X shill type st e h]
    simp

theorem UpdateManagedList_map_path (X : External P) (shill : ShillPropertyHandler)
    (self : NetworkStateHandler P) (type : ManagedType) (entries : ListValue) :
    ((UpdateManagedList X shill self type entries).state.GetManagedList type).map
        (fun managed => managed.path) = entries.map Value.asString := by
  unfold UpdateManagedList
  simp only [GetManagedList_setManagedList]
  rw [foldl_body_paths X shill type entries _ (keyedByPath_createMap _)]
  simp

/-- C2: after `UpdateManagedList(type, entries)` the paths of the entities in
the table of that type are the incoming paths, element for element and in the
same order; hence the table has as many entities as the incoming list has
entries and holds no entity whose path is missing from the incoming list. -/
theorem UpdateManagedList_paths (X : External P) (shill : ShillPropertyHandler)
    (self : NetworkStateHandler P) (type : ManagedType) (entries : ListValue) :
    (((UpdateManagedList X shill self type entries).state.GetManagedList type).map
        (fun managed => managed.path) = entries.map Value.asString) ∧
    ((UpdateManagedList X shill self type entries).state.GetManagedList type).length =
      entries.length ∧
    ∀ managed ∈ (UpdateManagedList X shill self type entries).state.GetManagedList type,
      managed.path ∈ entries.map Value.asString := by
  have h := UpdateManagedList_map_path X shill self type entries
  refine ⟨h, ?_, ?_⟩
  · have := congrArg List.length h
    simpa using this
  · intro managed hm
    rw [← h]
    exact List.mem_map_of_mem _ hm

/-! ### The lookup by path -/

theorem deref_GetModifiableManagedState (l : List (ManagedState P)) (p : String) :
    deref l (GetModifiableManagedState l p) = l.find? (fun m => decide (m.path = p)) := by
  induction l with
  | nil => simp [GetModifiableManagedState, deref]
  | cons m rest ih =>
    by_cases h : m.path = p
    · simp [GetModifiableManagedState, deref, h]
    · simp only [GetModifiableManagedState, h, if_false, List.find?_cons, decide_False]
      rw [← ih]
      cases hr : GetModifiableManagedState rest p <;> simp [deref]

theorem GetManagedState_eq_find (self : NetworkStateHandler P) (type : ManagedType) (p : String) :
    self.GetManagedState type p =
      (self.GetManagedList type).find? (fun m => decide (m.path = p)) :=
  deref_GetModifiableManagedState _ _

theorem GetModifiableManagedState_eq_none (l : List (ManagedState P)) (p : String)
    (h : p ∉ l.map (fun m => m.path)) : GetModifiableManagedState l p = none := by
  induction l with
  | nil => rfl
  | cons m rest ih =>
    simp only [List.map_cons, List.mem_cons, not_or] at h
    have h1 : ¬ m.path = p := fun e => h.1 e.symm
    simp [GetModifiableManagedState, h1, ih h.2]

/-! ### The map of existing entries -/

theorem foldl_update_apply (l : List (ManagedState P))
    (acc : String → Option (ManagedState P)) (p : String) :
    (l.foldl (fun (managed_map : String → Option (ManagedState P)) managed =>
        Function.update managed_map managed.path (some managed)) acc) p =
      ((l.reverse.find? (fun m => decide (m.path = p))).or (acc p)) := by
  induction l generalizing acc with
  | nil => simp
  | cons m rest ih =>
    simp only [List.foldl_cons, List.reverse_cons, List.find?_append]
    rw [ih]
    cases hr : rest.reverse.find? (fun m => decide (m.path = p)) with
    | some x => simp
    | none =>
      by_cases h : m.path = p
      · subst h; simp
      · have h2 : p ≠ m.path := fun e => h e.symm
        simp [h, Function.update_noteq h2]

theorem find_reverse_of_nodup (l : List (ManagedState P)) (p : String)
    (hT : (l.map (fun m => m.path)).Nodup) :
    l.reverse.find? (fun m => decide (m.path = p)) = l.find? (fun m => decide (m.path = p)) := by
  cases h1 : l.find? (fun m => decide (m.path = p)) with
  | none =>
    rw [List.find?_eq_none] at h1 ⊢
    intro x hx
    exact h1 x (List.mem_reverse.mp hx)
  | some a =>
    cases h2 : l.reverse.find? (fun m => decide (m.path = p)) with
    | none =>
      rw [List.find?_eq_none] at h2
      have := h2 a (List.mem_reverse.mpr (List.mem_of_find?_eq_some h1))
      have := List.find?_some h1
      simp_all
    | some b =>
      have ha := List.find?_some h1
      have hb := List.find?_some h2
      have hma := List.mem_of_find?_eq_some h1
      have hmb := List.mem_reverse.mp (List.mem_of_find?_eq_some h2)
      simp only [decide_eq_true_eq] at ha hb
      have := List.inj_on_of_nodup_map hT hmb hma (by rw [ha, hb])
      rw [this]

theorem createMap_apply (l : List (ManagedState P)) (p : String)
    (hT : (l.map (fun m => m.path)).Nodup) :
    UpdateManagedList.createMap l p = l.find? (fun m => decide (m.path = p)) := by
  unfold UpdateManagedList.createMap
  rw [foldl_update_apply, find_reverse_of_nodup l p hT]
  simp

theorem managedFor_some (X : External P) (shill : ShillPropertyHandler) (type : ManagedType)
    (found : ManagedState P) (path : String) :
    UpdateManagedList.managedFor X shill type (some found) path =
      raiseObserved found (shill.IsObservingNetwork path) := by
  unfold UpdateManagedList.managedFor raiseObserved ManagedState.set_is_observed
  by_cases ho : shill.IsObservingNetwork path <;> simp [ho]

theorem managedFor_none (X : External P) (shill : ShillPropertyHandler) (type : ManagedType)
    (path : String) :
    UpdateManagedList.managedFor X shill type none path =
      raiseObserved (ManagedState.Create X type path) (shill.IsObservingNetwork path) := by
  unfold UpdateManagedList.managedFor raiseObserved ManagedState.set_is_observed
  by_cases ho : shill.IsObservingNetwork path <;> simp [ho, ManagedState.Create]

/-! ### The second loop of `UpdateManagedList` -/

theorem body_managed_list (X : External P) (shill : ShillPropertyHandler) (type : ManagedType)
    (st : UpdateLoop P) (e : Value) :
    (UpdateManagedList.body X shill type st e).managed_list =
      st.managed_list ++
        [UpdateManagedList.managedFor X shill type (st.managed_map e.asString) e.asString] := by
  cases hf : st.managed_map e.asString with
  | none => rw [body_none X shill type st e hf]
  | some found => rw [body_some X shill type st e found hf]

theorem body_requests (X : External P) (shill : ShillPropertyHandler) (type : ManagedType)
    (st : UpdateLoop P) (e : Value) :
    (UpdateManagedList.body X shill type st e).requests =
      st.requests ++
        (if UpdateManagedList.needsProperties shill (st.managed_map e.asString) e.asString then
          [Request.RequestProperties type e.asString] else []) := by
  cases hf : st.managed_map e.asString with
  | none => rw [body_none X shill type st e hf]; simp [UpdateManagedList.needsProperties]
  | some found =>
    rw [body_some X shill type st e found hf]
    simp only [UpdateManagedList.needsProperties]
    split <;> simp

theorem body_managed_map (X : External P) (shill : ShillPropertyHandler) (type : ManagedType)
    (st : UpdateLoop P) (e : Value) (q : String) :
    (UpdateManagedList.body X shill type st e).managed_map q =
      if q = e.asString then none else st.managed_map q := by
  cases hf : st.managed_map e.asString with
  | none =>
    rw [body_none X shill type st e hf]
    by_cases hq : q = e.asString
    · simp [hq, hf]
    · simp [hq]
  | some found =>
    rw [body_some X shill type st e found hf]
    by_cases hq : q = e.asString
    · subst hq; simp
    · simp [hq, Function.update_noteq hq]

theorem foldl_body_of_nodup (X : External P) (shill : ShillPropertyHandler) (type : ManagedType)
    (entries : ListValue) (st : UpdateLoop P) (hE : (entries.map Value.asString).Nodup) :
    (entries.foldl (UpdateManagedList.body X shill type) st).managed_list =
        st.managed_list ++ entries.map (fun e =>
          UpdateManagedList.managedFor X shill type (st.managed_map e.asString) e.asString) ∧
    (entries.foldl (UpdateManagedList.body X shill type) st).requests =
        st.requests ++ (entries.filter (fun e =>
          UpdateManagedList.needsProperties shill (st.managed_map e.asString) e.asString)).map
            (fun e => Request.RequestProperties type e.asString) := by
  induction entries generalizing st with
  | nil => simp
  | cons e es ih =>
    simp only [List.map_cons, List.nodup_cons] at hE
    obtain ⟨hnot, hes⟩ := hE
    have hmap : ∀ x ∈ es, (UpdateManagedList.body X shill type st e).managed_map x.asString =
        st.managed_map x.asString := by
      intro x hx
      rw [body_managed_map]
      have : x.asString ≠ e.asString := by
        intro heq
        exact hnot (heq ▸ List.mem_map_of_mem _ hx)
      simp [this]
    obtain ⟨ih1, ih2⟩ := ih (UpdateManagedList.body X shill type st e) hes
    simp only [List.foldl_cons]
    constructor
    · rw [ih1, body_managed_list]
      simp only [List.append_assoc, List.singleton_append, List.map_cons]
      congr 2
      exact List.map_congr_left (fun x hx => by rw [hmap x hx])
    · rw [ih2, body_requests]
      have hfilter : es.filter (fun e_1 => UpdateManagedList.needsProperties shill
            ((UpdateManagedList.body X shill type st e).managed_map e_1.asString) e_1.asString) =
          es.filter (fun e_1 => UpdateManagedList.needsProperties shill
            (st.managed_map e_1.asString) e_1.asString) :=
        List.filter_congr (fun x hx => by rw [hmap x hx])
      rw [hfilter]
      by_cases hn : UpdateManagedList.needsProperties shill (st.managed_map e.asString) e.asString
      · simp [List.filter_cons, hn]
      · simp [List.filter_cons, hn]

theorem foldl_body_filter (X : External P) (shill : ShillPropertyHandler) (type : ManagedType)
    (p : String) (entries : ListValue) (st : UpdateLoop P) (h : KeyedByPath st.managed_map) :
    (entries.foldl (UpdateManagedList.body X shill type) st).managed_list.filter
        (fun m => decide (m.path = p)) =
      st.managed_list.filter (fun m => decide (m.path = p)) ++
        (if p ∈ entries.map Value.asString then
          UpdateManagedList.managedFor X shill type (st.managed_map p) p ::
            List.replicate ((entries.map Value.asString).count p - 1)
              (UpdateManagedList.managedFor X shill type none p)
        else []) := by
  induction entries generalizing st with
  | nil => simp
  | cons e es ih =>
    simp only [List.foldl_cons]
    rw [ih _ (body_keyedByPath X shill type st e h), body_managed_list, body_managed_map]
    have hpath : (UpdateManagedList.managedFor X shill type (st.managed_map e.asString)
        e.asString).path = e.asString :=
      managedFor_path X shill type _ _ (fun m hm => h _ _ hm)
    by_cases hpe : p = e.asString
    · subst hpe
      simp only [List.filter_append, List.filter_cons, hpath, decide_True, if_true,
        List.filter_nil, List.map_cons, List.mem_cons, true_or, List.count_cons_self,
        Nat.add_sub_cancel, List.append_assoc, List.singleton_append]
      congr 2
      by_cases hin : e.asString ∈ es.map Value.asString
      · have hpos : 0 < (es.map Value.asString).count e.asString := List.count_pos_iff.mpr hin
        simp only [hin, if_true]
        rw [← List.replicate_succ]
        congr 1
        omega
      · simp [hin, List.count_eq_zero_of_not_mem hin]
    · have hne : e.asString ≠ p := fun heq => hpe heq.symm
      simp [List.filter_append, List.filter_cons, hpath, hne, hpe, List.count_cons]

/-! ### Claims about `UpdateManagedList` -/

theorem UpdateManagedList_list (X : External P) (shill : ShillPropertyHandler)
    (self : NetworkStateHandler P) (type : ManagedType) (entries : ListValue) :
    (UpdateManagedList X shill self type entries).state.GetManagedList type =
      (entries.foldl (UpdateManagedList.body X shill type)
        { managed_map := UpdateManagedList.createMap (self.GetManagedList type),
          managed_list := [], requests := [] }).managed_list := by
  unfold UpdateManagedList
  simp only [GetManagedList_setManagedList]

theorem fetchCondition_eq (shill : ShillPropertyHandler) (l : List (ManagedState P)) (p : String)
    (hT : (l.map (fun m => m.path)).Nodup) :
    UpdateManagedList.needsProperties shill (l.find? (fun m => decide (m.path = p))) p =
      fetchCondition shill l p := by
  unfold fetchCondition UpdateManagedList.needsProperties
  cases hf : l.find? (fun m => decide (m.path = p)) with
  | none =>
    rw [List.find?_eq_none] at hf
    have : p ∉ l.map (fun m => m.path) := by
      intro hmem
      obtain ⟨m, hm, hmp⟩ := List.mem_map.mp hmem
      exact hf m hm (by simpa using hmp)
    simp [this]
  | some m =>
    have hm := List.mem_of_find?_eq_some hf
    have hmp : m.path = p := by simpa using List.find?_some hf
    have hin : p ∈ l.map (fun m => m.path) := hmp ▸ List.mem_map_of_mem _ hm
    simp only [hin, not_true_eq_false, decide_False, Bool.false_or]
    by_cases hc : (!m.is_observed && shill.IsObservingNetwork p) = true
    · rw [hc]
      symm
      rw [List.any_eq_true]
      exact ⟨m, hm, by simpa [hmp] using hc⟩
    · have hc2 : (!m.is_observed && shill.IsObservingNetwork p) = false := by simpa using hc
      rw [hc2]
      symm
      rw [List.any_eq_false]
      intro x hx hxc
      simp only [Bool.and_eq_true, decide_eq_true_eq] at hxc
      have hxm : x = m := List.inj_on_of_nodup_map hT hx hm (by rw [hxc.1.1, hmp])
      subst hxm
      apply hc
      simp [hxc.1.2, hxc.2]

/-- C3 (counterexample): with the table `[wifi1]` and the incoming list
`[/service/1, /service/1]`, the path `/service/1` is in the table and in the
incoming list, yet the update creates a fresh entity for it: the table
afterwards holds the old record followed by a newly created one, so the records
stored under that path are not just the old record. -/
theorem UpdateManagedList_identity_counterexample :
    ((mkHandler [wifi1] "").GetManagedList ManagedType.MANAGED_TYPE_NETWORK).map
        (fun m => m.path) = ["/service/1"] ∧
    (UpdateManagedList specExternal (shillObserving []) (mkHandler [wifi1] "")
        ManagedType.MANAGED_TYPE_NETWORK
        [Value.string "/service/1", Value.string "/service/1"]).state.network_list_ =
      [wifi1, ManagedState.Create specExternal ManagedType.MANAGED_TYPE_NETWORK "/service/1"] ∧
    ManagedState.Create specExternal ManagedType.MANAGED_TYPE_NETWORK "/service/1" ≠ wifi1 ∧
    ¬ ((UpdateManagedList specExternal (shillObserving []) (mkHandler [wifi1] "")
        ManagedType.MANAGED_TYPE_NETWORK
        [Value.string "/service/1", Value.string "/service/1"]).state.network_list_.filter
          (fun m => decide (m.path = "/service/1")) = [raiseObserved wifi1 false]) := by
  decide

/-- C3 (amended): for a table with pairwise-distinct paths and any incoming
list, a path that is in the table before `UpdateManagedList` (looked up to the
record `old`) and in the incoming list is looked up afterwards to the same
record, with kind, path, IP address and parsed properties unchanged and the
observation flag raised when the transport observes the path.  The records
stored under that path afterwards are that record followed by one freshly
created object for each further occurrence of the path in the incoming list; so
when the path occurs once in the incoming list no fresh entity is created for
it. -/
theorem UpdateManagedList_identity (X : External P) (shill : ShillPropertyHandler)
    (self : NetworkStateHandler P) (type : ManagedType) (entries : ListValue)
    (p : String) (old : ManagedState P)
    (hT : ((self.GetManagedList type).map (fun m => m.path)).Nodup)
    (hold : self.GetManagedState type p = some old)
    (hin : p ∈ entries.map Value.asString) :
    (UpdateManagedList X shill self type entries).state.GetManagedState type p =
        some { old with is_observed := old.is_observed || shill.IsObservingNetwork p } ∧
    ((UpdateManagedList X shill self type entries).state.GetManagedList type).filter
        (fun m => decide (m.path = p)) =
      { old with is_observed := old.is_observed || shill.IsObservingNetwork p } ::
        List.replicate ((entries.map Value.asString).count p - 1)
          (raiseObserved (ManagedState.Create X type p) (shill.IsObservingNetwork p)) ∧
    ((entries.map Value.asString).count p = 1 →
      ((UpdateManagedList X shill self type entries).state.GetManagedList type).filter
        (fun m => decide (m.path = p)) =
      [{ old with is_observed := old.is_observed || shill.IsObservingNetwork p }]) := by
  have hfind : (self.GetManagedList type).find? (fun m => decide (m.path = p)) = some old := by
    rw [← GetManagedState_eq_find]; exact hold
  have hfilter : ((UpdateManagedList X shill self type entries).state.GetManagedList type).filter
        (fun m => decide (m.path = p)) =
      { old with is_observed := old.is_observed || shill.IsObservingNetwork p } ::
        List.replicate ((entries.map Value.asString).count p - 1)
          (raiseObserved (ManagedState.Create X type p) (shill.IsObservingNetwork p)) := by
    rw [UpdateManagedList_list, foldl_body_filter X shill type p entries _
      (keyedByPath_createMap _)]
    simp only [List.filter_nil, List.nil_append, hin, if_true]
    rw [createMap_apply _ _ hT, hfind, managedFor_some, managedFor_none]
    rfl
  refine ⟨?_, hfilter, ?_⟩
  · rw [GetManagedState_eq_find, ← List.filter_head?, hfilter]
    rfl
  · intro hc
    rw [hfilter, hc]
    rfl

/-- C3 (witness): the table `[wifi1, cellular2]` updated with the incoming list
`[/service/2, /service/1]` while the transport observes `/service/1`. -/
theorem UpdateManagedList_identity_witness :
    (((mkHandler [wifi1, cellular2] "").GetManagedList ManagedType.MANAGED_TYPE_NETWORK).map
        (fun m => m.path)).Nodup ∧
    (mkHandler [wifi1, cellular2] "").GetManagedState ManagedType.MANAGED_TYPE_NETWORK
        "/service/1" = some wifi1 ∧
    "/service/1" ∈ [Value.string "/service/2", Value.string "/service/1"].map Value.asString ∧
    (UpdateManagedList specExternal (shillObserving ["/service/1"])
        (mkHandler [wifi1, cellular2] "") ManagedType.MANAGED_TYPE_NETWORK
        [Value.string "/service/2", Value.string "/service/1"]).state.GetManagedState
          ManagedType.MANAGED_TYPE_NETWORK "/service/1" =
      some (mkNetwork "/service/1" true [("Type", Value.string "wifi")]) :=
  ⟨by decide, by decide, by decide,
    (UpdateManagedList_identity specExternal (shillObserving ["/service/1"])
      (mkHandler [wifi1, cellular2] "") ManagedType.MANAGED_TYPE_NETWORK
      [Value.string "/service/2", Value.string "/service/1"] "/service/1" wifi1
      (by decide) (by decide) (by decide)).1⟩

/-- C4: for a table and an incoming list with pairwise-distinct paths, the
property-fetch requests `UpdateManagedList` issues are exactly one
`RequestProperties(type, path)` for each incoming path that was not in the table
before the update or whose existing entity was not yet observed while the
transport observes the path, in incoming order, and nothing else. -/
theorem UpdateManagedList_requests (X : External P) (shill : ShillPropertyHandler)
    (self : NetworkStateHandler P) (type : ManagedType) (entries : ListValue)
    (hT : ((self.GetManagedList type).map (fun m => m.path)).Nodup)
    (hE : (entries.map Value.asString).Nodup) :
    (UpdateManagedList X shill self type entries).requests =
      ((entries.map Value.asString).filter
        (fun path =>
          decide (path ∉ (self.GetManagedList type).map (fun managed => managed.path)) ||
            (self.GetManagedList type).any (fun managed =>
              decide (managed.path = path) && !managed.is_observed &&
                shill.IsObservingNetwork path))).map
        (fun path => Request.RequestProperties type path) := by
  have h := (foldl_body_of_nodup X shill type entries
    { managed_map := UpdateManagedList.createMap (self.GetManagedList type),
      managed_list := [], requests := [] } hE).2
  unfold UpdateManagedList
  simp only [] at h ⊢
  rw [h]
  simp only [List.nil_append, List.filter_map, List.map_map]
  congr 1
  apply List.filter_congr
  intro e _
  simp only [Function.comp]
  rw [createMap_apply _ _ hT, fetchCondition_eq shill _ _ hT]
  rfl

/-- C4 (witness): the table `[wifi1, cellular2]` and the incoming list
`[/service/3, /service/2, /service/1]` with all three paths observed: a fetch
for the new path and for the one not yet observed, in that order. -/
theorem UpdateManagedList_requests_witness :
    (((mkHandler [wifi1, cellular2] "").GetManagedList ManagedType.MANAGED_TYPE_NETWORK).map
        (fun m => m.path)).Nodup ∧
    (UpdateManagedList specExternal
        (shillObserving ["/service/1", "/service/2", "/service/3"])
        (mkHandler [wifi1, cellular2] "") ManagedType.MANAGED_TYPE_NETWORK
        [Value.string "/service/3", Value.string "/service/2",
          Value.string "/service/1"]).requests =
      [Request.RequestProperties ManagedType.MANAGED_TYPE_NETWORK "/service/3",
       Request.RequestProperties ManagedType.MANAGED_TYPE_NETWORK "/service/1"] :=
  ⟨by decide,
    (UpdateManagedList_requests specExternal
      (shillObserving ["/service/1", "/service/2", "/service/3"])
      (mkHandler [wifi1, cellular2] "") ManagedType.MANAGED_TYPE_NETWORK
      [Value.string "/service/3", Value.string "/service/2", Value.string "/service/1"]
      (by decide) (by decide)).trans (by decide)⟩

/-- C5: when the incoming list of `UpdateManagedList(type, entries)` does not
contain the path `p`, a following `UpdateManagedStateProperties(type, p, ...)`
emits no observer notification, issues no transport request and leaves the
whole handler state (both tables, both technology sets and the stored active
path) as the list update left it. -/
theorem UpdateManagedStateProperties_stale (X : External P) (shill : ShillPropertyHandler)
    (self : NetworkStateHandler P) (type : ManagedType) (entries : ListValue) (p : String)
    (properties : DictionaryValue) (h : p ∉ entries.map Value.asString) :
    (UpdateManagedStateProperties X (UpdateManagedList X shill self type entries).state
        type p properties).events = [] ∧
    (UpdateManagedStateProperties X (UpdateManagedList X shill self type entries).state
        type p properties).requests = [] ∧
    (UpdateManagedStateProperties X (UpdateManagedList X shill self type entries).state
        type p properties).state = (UpdateManagedList X shill self type entries).state := by
  have hnone : GetModifiableManagedState
      ((UpdateManagedList X shill self type entries).state.GetManagedList type) p = none := by
    apply GetModifiableManagedState_eq_none
    rw [UpdateManagedList_map_path X shill self type entries]
    exact h
  unfold UpdateManagedStateProperties
  rw [hnone]
  exact ⟨rfl, rfl, rfl⟩

/-- C5 (witness): the scenario of the spec: `/service/5` is dropped by a list
update and a property set for it arrives afterwards. -/
theorem UpdateManagedStateProperties_stale_witness :
    "/service/5" ∉ [Value.string "/service/1"].map Value.asString ∧
    (UpdateManagedStateProperties specExternal
        (UpdateManagedList specExternal (shillObserving [])
          (mkHandler [mkNetwork "/service/5" true []] "/service/5")
          ManagedType.MANAGED_TYPE_NETWORK [Value.string "/service/1"]).state
        ManagedType.MANAGED_TYPE_NETWORK "/service/5"
        [("State", Value.string "online")]).events = [] :=
  ⟨by decide,
    (UpdateManagedStateProperties_stale specExternal (shillObserving [])
      (mkHandler [mkNetwork "/service/5" true []] "/service/5")
      ManagedType.MANAGED_TYPE_NETWORK [Value.string "/service/1"] "/service/5"
      [("State", Value.string "online")] (by decide)).1⟩

theorem raiseObserved_props (m : ManagedState P) (b : Bool) : (raiseObserved m b).props = m.props :=
  rfl

theorem managedFor_props (X : External P) (shill : ShillPropertyHandler) (type : ManagedType)
    (found : Option (ManagedState P)) (path : String) :
    (UpdateManagedList.managedFor X shill type found path).props =
      (found.getD (ManagedState.Create X type path)).props := by
  unfold UpdateManagedList.managedFor ManagedState.set_is_observed
  by_cases ho : shill.IsObservingNetwork path <;> simp [ho]

/-- C1 (counterexample): the services table `[online1, association2]` satisfies
the ordering invariant; the update with the incoming list
`[/service/2, /service/1]` leaves the table `[association2, online1]`, in which
a connecting service precedes a connected one. -/
theorem UpdateManagedList_ordering_counterexample :
    ServicesOrdered specExternal (mkHandler [online1, association2] "").network_list_ ∧
    (UpdateManagedList specExternal (shillObserving []) (mkHandler [online1, association2] "")
        ManagedType.MANAGED_TYPE_NETWORK
        [Value.string "/service/2", Value.string "/service/1"]).state.network_list_ =
      [association2, online1] ∧
    association2.IsConnectingState specExternal = true ∧
    online1.IsConnectedState specExternal = true ∧
    ¬ ServicesOrdered specExternal
      (UpdateManagedList specExternal (shillObserving []) (mkHandler [online1, association2] "")
        ManagedType.MANAGED_TYPE_NETWORK
        [Value.string "/service/2", Value.string "/service/1"]).state.network_list_ := by
  decide

/-- C1 (amended): `UpdateManagedList` keeps the incoming order and does not
sort.  For a services table and an incoming list with pairwise-distinct paths,
the services table after `UpdateManagedList(NETWORK, entries)` satisfies the
ordering invariant if and only if the incoming path sequence is itself in that
order, each path being read as the entity cached for it before the update (a
newly created object for a path the table does not hold). -/
theorem UpdateManagedList_ordering (X : External P) (shill : ShillPropertyHandler)
    (self : NetworkStateHandler P) (entries : ListValue)
    (hT : (self.network_list_.map (fun m => m.path)).Nodup)
    (hE : (entries.map Value.asString).Nodup) :
    ServicesOrdered X
        (UpdateManagedList X shill self ManagedType.MANAGED_TYPE_NETWORK
          entries).state.network_list_ ↔
      ServicesOrdered X (entries.map (fun entry => cachedOrNew X self entry.asString)) := by
  have hl := (foldl_body_of_nodup X shill ManagedType.MANAGED_TYPE_NETWORK entries
    { managed_map := UpdateManagedList.createMap
        (self.GetManagedList ManagedType.MANAGED_TYPE_NETWORK),
      managed_list := [], requests := [] } hE).1
  have hlist : (UpdateManagedList X shill self ManagedType.MANAGED_TYPE_NETWORK
      entries).state.network_list_ = entries.map (fun e =>
        UpdateManagedList.managedFor X shill ManagedType.MANAGED_TYPE_NETWORK
          (self.network_list_.find? (fun m => decide (m.path = e.asString))) e.asString) := by
    have := UpdateManagedList_list X shill self ManagedType.MANAGED_TYPE_NETWORK entries
    simp only [GetManagedList] at this hl
    rw [this, hl]
    simp only [List.nil_append]
    exact List.map_congr_left (fun e _ => by rw [createMap_apply _ _ hT])
  rw [hlist]
  unfold ServicesOrdered
  rw [List.pairwise_map, List.pairwise_map]
  have hc : ∀ e : Value,
      (UpdateManagedList.managedFor X shill ManagedType.MANAGED_TYPE_NETWORK
        (self.network_list_.find? (fun m => decide (m.path = e.asString))) e.asString).props =
      (cachedOrNew X self e.asString).props := by
    intro e
    rw [managedFor_props]
    unfold cachedOrNew GetNetworkState
    rw [deref_GetModifiableManagedState]
  simp only [ManagedState.IsConnectedState, ManagedState.IsConnectingState, hc]

/-- C1 (witness): the table `[online1, association2]` and the incoming list
`[/service/1, /service/3, /service/2]`, which puts a new service between the
connected and the connecting one: the invariant fails on both sides. -/
theorem UpdateManagedList_ordering_witness :
    ((mkHandler [online1, association2] "").network_list_.map (fun m => m.path)).Nodup ∧
    (([Value.string "/service/1", Value.string "/service/3",
        Value.string "/service/2"].map Value.asString).Nodup) ∧
    (ServicesOrdered specExternal
        (UpdateManagedList specExternal (shillObserving []) (mkHandler [online1, association2] "")
          ManagedType.MANAGED_TYPE_NETWORK
          [Value.string "/service/1", Value.string "/service/3",
            Value.string "/service/2"]).state.network_list_ ↔
      ServicesOrdered specExternal
        ([Value.string "/service/1", Value.string "/service/3", Value.string "/service/2"].map
          (fun entry => cachedOrNew specExternal (mkHandler [online1, association2] "")
            entry.asString))) :=
  ⟨by decide, by decide,
    UpdateManagedList_ordering specExternal (shillObserving [])
      (mkHandler [online1, association2] "")
      [Value.string "/service/1", Value.string "/service/3", Value.string "/service/2"]
      (by decide) (by decide)⟩

/-! ### Claims about `ManagedStateListChanged` -/

theorem foldl_push_back (l acc : List (ManagedState P)) :
    l.foldl (fun list network => list ++ [network]) acc = acc ++ l := by
  induction l generalizing acc with
  | nil => simp
  | cons m rest ih => simp [ih]

theorem GetNetworkList_fst (self : NetworkStateHandler P) (list : List (ManagedState P)) :
    (self.GetNetworkList list).1 = self.network_list_ := by
  simp [GetNetworkList, clear, foldl_push_back]

theorem firstPath_eq (l : List (ManagedState P)) :
    firstPath l = ((l.map (fun m => m.path)).head?).getD "" := by
  cases l <;> rfl

theorem ManagedStateListChanged_network (self : NetworkStateHandler P) :
    ManagedStateListChanged self ManagedType.MANAGED_TYPE_NETWORK =
      if firstPath self.network_list_ ≠ self.active_network_path_ then
        { state := { self with active_network_path_ := firstPath self.network_list_ }
          events := [Event.NetworkListChanged self.network_list_,
            Event.ActiveNetworkChanged self.network_list_.head?]
          requests := [Request.RequestScan] }
      else
        { state := self, events := [Event.NetworkListChanged self.network_list_],
          requests := [Request.RequestScan] } := by
  simp only [ManagedStateListChanged, GetNetworkList_fst, firstPath]
  rfl

theorem ManagedStateListChanged_active_path (self : NetworkStateHandler P) :
    (ManagedStateListChanged self ManagedType.MANAGED_TYPE_NETWORK).state.active_network_path_ =
      firstPath self.network_list_ := by
  rw [ManagedStateListChanged_network]
  by_cases h : firstPath self.network_list_ = self.active_network_path_ <;> simp [h]

theorem ManagedStateListChanged_network_list (self : NetworkStateHandler P) :
    (ManagedStateListChanged self ManagedType.MANAGED_TYPE_NETWORK).state.network_list_ =
      self.network_list_ := by
  rw [ManagedStateListChanged_network]
  by_cases h : firstPath self.network_list_ = self.active_network_path_ <;> simp [h]

theorem UpdateManagedList_active_path (X : External P) (shill : ShillPropertyHandler)
    (self : NetworkStateHandler P) (type : ManagedType) (entries : ListValue) :
    (UpdateManagedList X shill self type entries).state.active_network_path_ =
      self.active_network_path_ := by
  cases type <;> rfl

theorem UpdateManagedList_network_paths (X : External P) (shill : ShillPropertyHandler)
    (self : NetworkStateHandler P) (entries : ListValue) :
    (UpdateManagedList X shill self ManagedType.MANAGED_TYPE_NETWORK
      entries).state.network_list_.map (fun m => m.path) = entries.map Value.asString :=
  UpdateManagedList_map_path X shill self ManagedType.MANAGED_TYPE_NETWORK entries

/-- C6 (counterexample): starting from an empty handler, the update cycle for
the list `[/service/1]` applied a second time broadcasts `NetworkListChanged`
again: the second application emits one notification, not zero. -/
theorem ManagedListUpdateCycle_twice_counterexample :
    (ManagedListUpdateCycle specExternal (shillObserving [])
        (ManagedListUpdateCycle specExternal (shillObserving []) (mkHandler [] "")
          [Value.string "/service/1"]).state
        [Value.string "/service/1"]).events =
      [Event.NetworkListChanged [mkNetwork "/service/1" false []]] ∧
    (ManagedListUpdateCycle specExternal (shillObserving [])
        (ManagedListUpdateCycle specExternal (shillObserving []) (mkHandler [] "")
          [Value.string "/service/1"]).state
        [Value.string "/service/1"]).events ≠ [] := by
  decide

/-- C6 (amended): when the managed-list update cycle for a services path list is
applied twice in a row, the second application emits exactly one observer
notification, the unconditional `NetworkListChanged` carrying the services
table, and no `ActiveNetworkChanged` or other notification; this holds whatever
the transport observes during either application. -/
theorem ManagedListUpdateCycle_twice (X : External P) (shill shill2 : ShillPropertyHandler)
    (self : NetworkStateHandler P) (entries : ListValue) :
    (ManagedListUpdateCycle X shill2 (ManagedListUpdateCycle X shill self entries).state
        entries).events =
      [Event.NetworkListChanged
        (ManagedListUpdateCycle X shill2 (ManagedListUpdateCycle X shill self entries).state
          entries).state.network_list_] := by
  have h1 : (ManagedListUpdateCycle X shill self entries).state.active_network_path_ =
      ((entries.map Value.asString).head?).getD "" := by
    simp only [ManagedListUpdateCycle]
    rw [ManagedStateListChanged_active_path, firstPath_eq, UpdateManagedList_network_paths]
  have h2 : firstPath (UpdateManagedList X shill2
        (ManagedListUpdateCycle X shill self entries).state
        ManagedType.MANAGED_TYPE_NETWORK entries).state.network_list_ =
      (UpdateManagedList X shill2 (ManagedListUpdateCycle X shill self entries).state
        ManagedType.MANAGED_TYPE_NETWORK entries).state.active_network_path_ := by
    rw [firstPath_eq, UpdateManagedList_network_paths, UpdateManagedList_active_path, h1]
  have hcycle : ∀ s : NetworkStateHandler P, ManagedListUpdateCycle X shill2 s entries =
      { state := (ManagedStateListChanged
            (UpdateManagedList X shill2 s ManagedType.MANAGED_TYPE_NETWORK entries).state
            ManagedType.MANAGED_TYPE_NETWORK).state
        events := (ManagedStateListChanged
            (UpdateManagedList X shill2 s ManagedType.MANAGED_TYPE_NETWORK entries).state
            ManagedType.MANAGED_TYPE_NETWORK).events
        requests := (UpdateManagedList X shill2 s ManagedType.MANAGED_TYPE_NETWORK
            entries).requests ++ (ManagedStateListChanged
            (UpdateManagedList X shill2 s ManagedType.MANAGED_TYPE_NETWORK entries).state
            ManagedType.MANAGED_TYPE_NETWORK).requests } := by
    intro s
    simp [ManagedListUpdateCycle, UpdateManagedList]
  rw [hcycle]
  simp only []
  rw [ManagedStateListChanged_network]
  simp [h2]

/-- C7 (failing input): the services table `[idle1]` with an empty stored
active path.  `ManagedStateListChanged(NETWORK)` stores `/service/1`, the path
of the first entry, although that entry is not in a connected state and
`ActiveNetwork()` returns no network; the claim asks for the empty string. -/
theorem ManagedStateListChanged_active_path_not_connected :
    idle1.IsConnectedState specExternal = false ∧
    ActiveNetwork specExternal (mkHandler [idle1] "") = none ∧
    (ManagedStateListChanged (mkHandler [idle1] "")
        ManagedType.MANAGED_TYPE_NETWORK).state.active_network_path_ = "/service/1" ∧
    (ManagedStateListChanged (mkHandler [idle1] "")
        ManagedType.MANAGED_TYPE_NETWORK).state.active_network_path_ ≠ "" ∧
    ActiveNetwork specExternal (ManagedStateListChanged (mkHandler [idle1] "")
        ManagedType.MANAGED_TYPE_NETWORK).state = none ∧
    (ManagedListUpdateCycle specExternal (shillObserving []) (mkHandler [] "")
        [Value.string "/service/1"]).state.active_network_path_ = "/service/1" ∧
    ActiveNetwork specExternal (ManagedListUpdateCycle specExternal (shillObserving [])
        (mkHandler [] "") [Value.string "/service/1"]).state = none := by
  decide

/-- C8: `ManagedStateListChanged(NETWORK)` emits `ActiveNetworkChanged` exactly
once, carrying the first entry of the services table (no network for an empty
table), when the path of that first entry (empty for an empty table) differs
from the stored active path, and does not emit it when the two are equal.  In
the scenario where the table `[A, B]` with `A` the stored active service is
updated to `[B, A]` with `B` connected, the table afterwards is `[B, A]`,
`ActiveNetworkChanged` is emitted exactly once, with `B`, and `ActiveNetwork()`
returns `B`. -/
theorem ManagedStateListChanged_active_changed (X : External P) (shill : ShillPropertyHandler)
    (self : NetworkStateHandler P) :
    ((ManagedStateListChanged self ManagedType.MANAGED_TYPE_NETWORK).events.filter
        Event.isActiveNetworkChanged =
      if firstPath self.network_list_ ≠ self.active_network_path_ then
        [Event.ActiveNetworkChanged self.network_list_.head?]
      else []) ∧
    (∀ A B : ManagedState P, self.network_list_ = [A, B] →
      self.active_network_path_ = A.path → A.path ≠ B.path → B.IsConnectedState X = true →
      (UpdateManagedList X shill self ManagedType.MANAGED_TYPE_NETWORK
          [Value.string B.path, Value.string A.path]).state.network_list_ =
        [raiseObserved B (shill.IsObservingNetwork B.path),
         raiseObserved A (shill.IsObservingNetwork A.path)] ∧
      (ManagedStateListChanged
          (UpdateManagedList X shill self ManagedType.MANAGED_TYPE_NETWORK
            [Value.string B.path, Value.string A.path]).state
          ManagedType.MANAGED_TYPE_NETWORK).events.filter Event.isActiveNetworkChanged =
        [Event.ActiveNetworkChanged (some (raiseObserved B (shill.IsObservingNetwork B.path)))] ∧
      ActiveNetwork X (ManagedStateListChanged
          (UpdateManagedList X shill self ManagedType.MANAGED_TYPE_NETWORK
            [Value.string B.path, Value.string A.path]).state
          ManagedType.MANAGED_TYPE_NETWORK).state =
        some (raiseObserved B (shill.IsObservingNetwork B.path))) := by
  constructor
  · rw [ManagedStateListChanged_network]
    by_cases h : firstPath self.network_list_ = self.active_network_path_ <;>
      simp [h, Event.isActiveNetworkChanged, List.filter_cons]
  · intro A B hl hactive hne hconn
    have hne2 : B.path ≠ A.path := fun h => hne h.symm
    have hT : (self.network_list_.map (fun m => m.path)).Nodup := by simp [hl, hne]
    have hE : (([Value.string B.path, Value.string A.path] : ListValue).map
        Value.asString).Nodup := by
      simp [Value.asString, Value.GetAsString, hne2]
    have hlist : (UpdateManagedList X shill self ManagedType.MANAGED_TYPE_NETWORK
          [Value.string B.path, Value.string A.path]).state.network_list_ =
        [raiseObserved B (shill.IsObservingNetwork B.path),
         raiseObserved A (shill.IsObservingNetwork A.path)] := by
      have h1 := UpdateManagedList_list X shill self ManagedType.MANAGED_TYPE_NETWORK
        [Value.string B.path, Value.string A.path]
      have h2 := (foldl_body_of_nodup X shill ManagedType.MANAGED_TYPE_NETWORK
        [Value.string B.path, Value.string A.path]
        { managed_map := UpdateManagedList.createMap
            (self.GetManagedList ManagedType.MANAGED_TYPE_NETWORK),
          managed_list := [], requests := [] } hE).1
      simp only [GetManagedList] at h1 h2
      rw [h1, h2]
      simp only [List.nil_append, List.map_cons, List.map_nil]
      rw [createMap_apply _ _ hT, createMap_apply _ _ hT, hl]
      simp [Value.asString, Value.GetAsString, hne, hne2, managedFor_some]
    refine ⟨hlist, ?_, ?_⟩
    · rw [ManagedStateListChanged_network, hlist, UpdateManagedList_active_path, hactive]
      have : firstPath [raiseObserved B (shill.IsObservingNetwork B.path),
          raiseObserved A (shill.IsObservingNetwork A.path)] = B.path := rfl
      simp [this, hne2, Event.isActiveNetworkChanged, List.filter_cons]
    · unfold ActiveNetwork
      rw [ManagedStateListChanged_network_list, hlist]
      have : (raiseObserved B (shill.IsObservingNetwork B.path)).IsConnectedState X = true :=
        hconn
      simp [this]

/-- C8 (witness): the scenario of the spec.  The table is `[idle1, online2]`
with `/service/1` the stored active path; the list update reorders it to
`[/service/2, /service/1]`. -/
theorem ManagedStateListChanged_active_changed_witness :
    (ManagedStateListChanged
        (UpdateManagedList specExternal (shillObserving []) (mkHandler [idle1, online2] "/service/1")
          ManagedType.MANAGED_TYPE_NETWORK
          [Value.string "/service/2", Value.string "/service/1"]).state
        ManagedType.MANAGED_TYPE_NETWORK).events.filter Event.isActiveNetworkChanged =
      [Event.ActiveNetworkChanged (some online2)] ∧
    ActiveNetwork specExternal (ManagedStateListChanged
        (UpdateManagedList specExternal (shillObserving []) (mkHandler [idle1, online2] "/service/1")
          ManagedType.MANAGED_TYPE_NETWORK
          [Value.string "/service/2", Value.string "/service/1"]).state
        ManagedType.MANAGED_TYPE_NETWORK).state = some online2 :=
  ((ManagedStateListChanged_active_changed specExternal (shillObserving [])
    (mkHandler [idle1, online2] "/service/1")).2 idle1 online2 rfl rfl (by decide) (by decide)).2

/-! ### Claims about `UpdateManagedStateProperties` -/

/-- C9 (failing input): the connected service `/service/1` is the stored active
service and a property set with the pairs `State` and `Type` arrives for it.
`ActiveNetworkStateChanged` is broadcast from inside the loop, when only the
`State` pair has been applied: the record the observers see lacks the `Type`
that the service holds once the update returns, whereas the later
`NetworkServiceChanged` shows the final record. -/
theorem UpdateManagedStateProperties_midway_state_visible :
    (mkHandler [ready1] "/service/1").GetNetworkState "/service/1" = some ready1 ∧
    (UpdateManagedStateProperties specExternal (mkHandler [ready1] "/service/1")
        ManagedType.MANAGED_TYPE_NETWORK "/service/1"
        [("State", Value.string "online"), ("Type", Value.string "wifi")]).events =
      [Event.ActiveNetworkStateChanged
          (mkNetwork "/service/1" true [("State", Value.string "online")]),
       Event.NetworkServiceChanged
          (mkNetwork "/service/1" true
            [("State", Value.string "online"), ("Type", Value.string "wifi")])] ∧
    (UpdateManagedStateProperties specExternal (mkHandler [ready1] "/service/1")
        ManagedType.MANAGED_TYPE_NETWORK "/service/1"
        [("State", Value.string "online"), ("Type", Value.string "wifi")]).state.GetNetworkState
          "/service/1" =
      some (mkNetwork "/service/1" true
        [("State", Value.string "online"), ("Type", Value.string "wifi")]) ∧
    mkNetwork "/service/1" true [("State", Value.string "online")] ≠
      mkNetwork "/service/1" true
        [("State", Value.string "online"), ("Type", Value.string "wifi")] := by
  decide

theorem ParseNetworkServiceProperty_path (X : External P) (self : NetworkStateHandler P)
    (network : ManagedState P) (key : String) (value : Value) :
    (ParseNetworkServiceProperty X self network key value).network.path = network.path := by
  unfold ParseNetworkServiceProperty
  split
  · rfl
  · simp only []
    split <;> rfl

theorem ParseNetworkServiceProperty_events (X : External P) (self : NetworkStateHandler P)
    (network : ManagedState P) (key : String) (value : Value) :
    (ParseNetworkServiceProperty X self network key value).events.filter
      Event.isNetworkServiceChanged = [] := by
  unfold ParseNetworkServiceProperty
  by_cases hk : key = X.kIPConfigProperty
  · simp [hk]
  · by_cases hc : (network.PropertyChanged X key value).2 = true
    · simp only [hk, hc, if_false, if_true]
      split <;> simp [Event.isNetworkServiceChanged]
    · simp [hk, hc]

theorem ParseNetworkServiceProperty_changed (X : External P) (self : NetworkStateHandler P)
    (network : ManagedState P) (key : String) (value : Value) :
    (ParseNetworkServiceProperty X self network key value).property_changed =
      (if key = X.kIPConfigProperty then false
       else (network.PropertyChanged X key value).2) ∧
    (ParseNetworkServiceProperty X self network key value).network =
      (if key = X.kIPConfigProperty then network
       else (network.PropertyChanged X key value).1) := by
  unfold ParseNetworkServiceProperty
  by_cases hk : key = X.kIPConfigProperty
  · simp [hk]
  · by_cases hc : (network.PropertyChanged X key value).2 = true <;> simp [hk, hc]

theorem properties_loop_network (X : External P) (self : NetworkStateHandler P)
    (properties : DictionaryValue) (st : PropertiesLoop P) :
    (properties.foldl (UpdateManagedStateProperties.body X self
        ManagedType.MANAGED_TYPE_NETWORK) st).network_property_changed =
      (st.network_property_changed || anyReportedChanged X st.managed properties) ∧
    (properties.foldl (UpdateManagedStateProperties.body X self
        ManagedType.MANAGED_TYPE_NETWORK) st).events.filter Event.isNetworkServiceChanged =
      st.events.filter Event.isNetworkServiceChanged ∧
    (properties.foldl (UpdateManagedStateProperties.body X self
        ManagedType.MANAGED_TYPE_NETWORK) st).managed.path = st.managed.path := by
  induction properties generalizing st with
  | nil => simp [anyReportedChanged]
  | cons kv rest ih =>
    obtain ⟨key, value⟩ := kv
    simp only [List.foldl_cons]
    obtain ⟨ih1, ih2, ih3⟩ := ih (UpdateManagedStateProperties.body X self
      ManagedType.MANAGED_TYPE_NETWORK st (key, value))
    rw [ih1, ih2, ih3]
    have hp := ParseNetworkServiceProperty_changed X self st.managed key value
    have he := ParseNetworkServiceProperty_events X self st.managed key value
    have hpath := ParseNetworkServiceProperty_path X self st.managed key value
    refine ⟨?_, ?_, ?_⟩
    · simp only [UpdateManagedStateProperties.body, if_true, hp.1, hp.2, anyReportedChanged]
      by_cases hk : key = X.kIPConfigProperty
      · simp [hk]
      · cases hc : (st.managed.PropertyChanged X key value).2 <;>
          cases hs : st.network_property_changed <;> simp [hk]
    · simp only [UpdateManagedStateProperties.body, if_true, List.filter_append, he,
        List.append_nil]
    · simp only [UpdateManagedStateProperties.body, if_true, hpath]

theorem properties_loop_device (X : External P) (self : NetworkStateHandler P)
    (properties : DictionaryValue) (st : PropertiesLoop P) :
    (properties.foldl (UpdateManagedStateProperties.body X self
        ManagedType.MANAGED_TYPE_DEVICE) st).network_property_changed =
      st.network_property_changed ∧
    (properties.foldl (UpdateManagedStateProperties.body X self
        ManagedType.MANAGED_TYPE_DEVICE) st).events = st.events := by
  induction properties generalizing st with
  | nil => simp
  | cons kv rest ih =>
    simp only [List.foldl_cons]
    obtain ⟨ih1, ih2⟩ := ih (UpdateManagedStateProperties.body X self
      ManagedType.MANAGED_TYPE_DEVICE st kv)
    rw [ih1, ih2]
    simp [UpdateManagedStateProperties.body]

theorem GetModifiableManagedState_set (l : List (ManagedState P)) (i : Nat)
    (m : ManagedState P) (p : String) (h : ∀ a, l[i]? = some a → m.path = a.path) :
    GetModifiableManagedState (l.set i m) p = GetModifiableManagedState l p := by
  induction l generalizing i with
  | nil => simp
  | cons a rest ih =>
    cases i with
    | zero =>
      have := h a (by simp)
      simp [GetModifiableManagedState, this]
    | succ j =>
      have hj : ∀ b, rest[j]? = some b → m.path = b.path := by
        intro b hb
        exact h b (by simpa using hb)
      simp [GetModifiableManagedState, ih j hj]

theorem exists_index_of_GetNetworkState (self : NetworkStateHandler P) (path : String)
    (managed : ManagedState P) (h : self.GetNetworkState path = some managed) :
    ∃ i, GetModifiableManagedState self.network_list_ path = some i ∧
      self.network_list_[i]? = some managed ∧ managed.path = path := by
  have hfind : self.network_list_.find? (fun m => decide (m.path = path)) = some managed := by
    rw [← deref_GetModifiableManagedState]; exact h
  have hpath : managed.path = path := by simpa using List.find?_some hfind
  unfold GetNetworkState deref at h
  cases hi : GetModifiableManagedState self.network_list_ path with
  | none => rw [hi] at h; simp at h
  | some i =>
    rw [hi] at h
    exact ⟨i, rfl, by simpa using h, hpath⟩

/-- C10: for a property-set update on a service present in the services table,
`UpdateManagedStateProperties` emits `NetworkServiceChanged` exactly once, for
that service as it is after the update, when the differ reports at least one of
the pairs as changed, however many, and does not emit it when no pair is
reported changed; a property-set update on a device, on any handler state and
for any path, emits no observer notification at all. -/
theorem UpdateManagedStateProperties_notifies (X : External P) (self : NetworkStateHandler P) :
    (∀ (path : String) (properties : DictionaryValue) (managed : ManagedState P),
      self.GetNetworkState path = some managed →
      ∃ network : ManagedState P,
        (UpdateManagedStateProperties X self ManagedType.MANAGED_TYPE_NETWORK path
          properties).state.GetNetworkState path = some network ∧
        network.path = path ∧
        (UpdateManagedStateProperties X self ManagedType.MANAGED_TYPE_NETWORK path
            properties).events.filter Event.isNetworkServiceChanged =
          if anyReportedChanged X managed properties then [Event.NetworkServiceChanged network]
          else []) ∧
    (∀ (device_path : String) (device_properties : DictionaryValue),
      (UpdateManagedStateProperties X self ManagedType.MANAGED_TYPE_DEVICE device_path
        device_properties).events = []) := by
  constructor
  · intro path properties managed h
    obtain ⟨i, hi, hget, hpath⟩ := exists_index_of_GetNetworkState self path managed h
    obtain ⟨h1, h2, h3⟩ := properties_loop_network X self properties
      { managed := managed, network_property_changed := false, events := [], requests := [] }
    simp only [Bool.false_or, List.filter_nil] at h1 h2 h3
    refine ⟨(properties.foldl (UpdateManagedStateProperties.body X self
        ManagedType.MANAGED_TYPE_NETWORK)
        { managed := managed, network_property_changed := false, events := [],
          requests := [] }).managed, ?_, ?_, ?_⟩
    · have hilt : i < self.network_list_.length := by
        rw [List.getElem?_eq_some] at hget
        exact hget.1
      simp only [UpdateManagedStateProperties, GetManagedList, hi, hget, setManagedList,
        GetNetworkState]
      rw [GetModifiableManagedState_set _ _ _ _ (by
        intro a ha
        rw [hget] at ha
        cases ha
        exact h3), hi]
      simp [deref, List.getElem?_set_self hilt]
    · rw [h3, hpath]
    · simp only [UpdateManagedStateProperties, GetManagedList, hi, hget, h1]
      cases hany : anyReportedChanged X managed properties
      · simpa using h2
      · simp [List.filter_append, h2, Event.isNetworkServiceChanged]
  · intro device_path device_properties
    unfold UpdateManagedStateProperties
    split
    · rfl
    · split
      · rfl
      · rename_i device _
        obtain ⟨h1, h2⟩ := properties_loop_device X self device_properties
          { managed := device, network_property_changed := false, events := [], requests := [] }
        simp only [h1, h2]
        rfl

/-- C10 (witness): a property set with two changed pairs for the service
`/service/1`, which is not the active one: one `NetworkServiceChanged`; and a
property set for the device `/device/1` of a handler without services: no
notification. -/
theorem UpdateManagedStateProperties_notifies_witness :
    (mkHandler [wifi1] "").GetNetworkState "/service/1" = some wifi1 ∧
    anyReportedChanged specExternal wifi1
      [("Name", Value.string "home"), ("State", Value.string "online")] = true ∧
    (∃ network : ManagedState PropertyBag,
      (UpdateManagedStateProperties specExternal (mkHandler [wifi1] "")
        ManagedType.MANAGED_TYPE_NETWORK "/service/1"
        [("Name", Value.string "home"), ("State", Value.string "online")]).state.GetNetworkState
          "/service/1" = some network ∧
      network.path = "/service/1" ∧
      (UpdateManagedStateProperties specExternal (mkHandler [wifi1] "")
          ManagedType.MANAGED_TYPE_NETWORK "/service/1"
          [("Name", Value.string "home"), ("State", Value.string "online")]).events.filter
            Event.isNetworkServiceChanged =
        if anyReportedChanged specExternal wifi1
            [("Name", Value.string "home"), ("State", Value.string "online")] then
          [Event.NetworkServiceChanged network]
        else []) ∧
    (mkHandlerWithDevices [] [device1]).GetDeviceState "/device/1" = some device1 ∧
    (UpdateManagedStateProperties specExternal (mkHandlerWithDevices [] [device1])
        ManagedType.MANAGED_TYPE_DEVICE "/device/1"
        [("Address", Value.string "001122334455")]).events = [] :=
  ⟨by decide, by decide,
    (UpdateManagedStateProperties_notifies specExternal (mkHandler [wifi1] "")).1 "/service/1"
      [("Name", Value.string "home"), ("State", Value.string "online")] wifi1 (by decide),
    by decide,
    (UpdateManagedStateProperties_notifies specExternal
      (mkHandlerWithDevices [] [device1])).2 "/device/1"
      [("Address", Value.string "001122334455")]⟩

/-! ### Claims about `ParseNetworkServiceProperty` -/

theorem exists_index_of_find (l : List (ManagedState P)) (path : String)
    (managed : ManagedState P)
    (h : deref l (GetModifiableManagedState l path) = some managed) :
    ∃ i, GetModifiableManagedState l path = some i ∧ l[i]? = some managed ∧
      managed.path = path := by
  have hfind : l.find? (fun m => decide (m.path = path)) = some managed := by
    rw [← deref_GetModifiableManagedState]; exact h
  have hpath : managed.path = path := by simpa using List.find?_some hfind
  unfold deref at h
  cases hi : GetModifiableManagedState l path with
  | none => rw [hi] at h; simp at h
  | some i =>
    rw [hi] at h
    exact ⟨i, rfl, by simpa using h, hpath⟩

theorem set_same (l : List (ManagedState P)) (i : Nat) (m : ManagedState P)
    (h : l[i]? = some m) : l.set i m = l := by
  induction l generalizing i with
  | nil => rfl
  | cons a rest ih =>
    cases i with
    | zero =>
      have : a = m := by simpa using h
      simp [this]
    | succ j =>
      have hj : rest[j]? = some m := by simpa using h
      simp [ih j hj]

/-- C12: under the IP-configuration key `ParseNetworkServiceProperty` leaves the
service as it is, whatever the differ would do with the pair (the differ is not
consulted), issues exactly one `RequestIPConfig(path of the service, value)`,
returns `false` and emits no observer notification; the single-property update
of a present service with that key therefore leaves the services table
unchanged, notifies nobody and makes that one transport call. -/
theorem ParseNetworkServiceProperty_ip_config (X : External P) (self : NetworkStateHandler P)
    (network : ManagedState P) (value : Value) :
    (∀ differ : ManagedType → P → String → Value → P × Bool,
      ParseNetworkServiceProperty { X with PropertyChanged := differ } self network
          X.kIPConfigProperty value =
        { network := network, property_changed := false, events := [],
          requests := [Request.RequestIPConfig network.path value.asString] }) ∧
    (∀ ip_config_path : String,
      (ParseNetworkServiceProperty X self network X.kIPConfigProperty
          (Value.string ip_config_path)).requests =
        [Request.RequestIPConfig network.path ip_config_path]) ∧
    (∀ service_path : String, self.GetNetworkState service_path = some network →
      (UpdateNetworkServiceProperty X self service_path X.kIPConfigProperty value).events = [] ∧
      (UpdateNetworkServiceProperty X self service_path X.kIPConfigProperty value).requests =
        [Request.RequestIPConfig network.path value.asString] ∧
      (UpdateNetworkServiceProperty X self service_path X.kIPConfigProperty
        value).state.network_list_ = self.network_list_) := by
  have hparse : ∀ differ : ManagedType → P → String → Value → P × Bool,
      ParseNetworkServiceProperty { X with PropertyChanged := differ } self network
          X.kIPConfigProperty value =
        { network := network, property_changed := false, events := [],
          requests := [Request.RequestIPConfig network.path value.asString] } := by
    intro differ
    simp [ParseNetworkServiceProperty]
  have hX : ParseNetworkServiceProperty X self network X.kIPConfigProperty value =
      { network := network, property_changed := false, events := [],
        requests := [Request.RequestIPConfig network.path value.asString] } :=
    hparse X.PropertyChanged
  refine ⟨hparse, ?_, ?_⟩
  · intro ip_config_path
    simp [ParseNetworkServiceProperty, Value.asString, Value.GetAsString]
  · intro service_path hfound
    obtain ⟨i, hi, hget, _⟩ := exists_index_of_find self.network_list_ service_path network
      hfound
    simp only [UpdateNetworkServiceProperty, hi, hget, hX]
    refine ⟨by simp, trivial, ?_⟩
    exact set_same _ _ _ hget

/-- C12 (witness): the single-property update of the present service
`/service/1` with the key `IPConfig` and the value `/ipconfig/7`. -/
theorem ParseNetworkServiceProperty_ip_config_witness :
    (mkHandler [wifi1] "").GetNetworkState "/service/1" = some wifi1 ∧
    (UpdateNetworkServiceProperty specExternal (mkHandler [wifi1] "") "/service/1" "IPConfig"
        (Value.string "/ipconfig/7")).events = [] ∧
    (UpdateNetworkServiceProperty specExternal (mkHandler [wifi1] "") "/service/1" "IPConfig"
        (Value.string "/ipconfig/7")).requests =
      [Request.RequestIPConfig "/service/1" "/ipconfig/7"] ∧
    (UpdateNetworkServiceProperty specExternal (mkHandler [wifi1] "") "/service/1" "IPConfig"
        (Value.string "/ipconfig/7")).state.network_list_ = [wifi1] :=
  ⟨by decide,
    (ParseNetworkServiceProperty_ip_config specExternal (mkHandler [wifi1] "") wifi1
      (Value.string "/ipconfig/7")).2.2 "/service/1" (by decide)⟩

/-! ### Claims about `UpdateNetworkServiceIPAddress` -/

/-- C13: for a service path present in the services table (looked up to the
record `network`) and any address string, `UpdateNetworkServiceIPAddress` sets
the IP address of that service to the string and emits `NetworkServiceChanged`
for it exactly once, whether or not the address differs from the stored one; no
other field of the service changes, every other position of the services table
keeps its entity, and the device table, the technology sets and the stored
active path are untouched; no transport call is made. -/
theorem UpdateNetworkServiceIPAddress_sets (self : NetworkStateHandler P)
    (service_path : String) (ip_address : String) (network : ManagedState P)
    (h : self.GetNetworkState service_path = some network) :
    (UpdateNetworkServiceIPAddress self service_path ip_address).events =
      [Event.NetworkServiceChanged { network with ip_address := ip_address }] ∧
    (UpdateNetworkServiceIPAddress self service_path ip_address).requests = [] ∧
    (UpdateNetworkServiceIPAddress self service_path ip_address).state.GetNetworkState
        service_path = some { network with ip_address := ip_address } ∧
    (∃ i : Nat, self.network_list_[i]? = some network ∧
      (UpdateNetworkServiceIPAddress self service_path ip_address).state.network_list_ =
        self.network_list_.set i { network with ip_address := ip_address } ∧
      ∀ j : Nat, j ≠ i →
        (UpdateNetworkServiceIPAddress self service_path ip_address).state.network_list_[j]? =
          self.network_list_[j]?) ∧
    (UpdateNetworkServiceIPAddress self service_path ip_address).state.device_list_ =
      self.device_list_ ∧
    (UpdateNetworkServiceIPAddress self service_path ip_address).state.available_technologies_ =
      self.available_technologies_ ∧
    (UpdateNetworkServiceIPAddress self service_path ip_address).state.enabled_technologies_ =
      self.enabled_technologies_ ∧
    (UpdateNetworkServiceIPAddress self service_path ip_address).state.active_network_path_ =
      self.active_network_path_ := by
  obtain ⟨i, hi, hget, hpath⟩ := exists_index_of_find self.network_list_ service_path network h
  have hilt : i < self.network_list_.length := by
    rw [List.getElem?_eq_some] at hget
    exact hget.1
  simp only [UpdateNetworkServiceIPAddress, hi, hget, ManagedState.set_ip_address]
  refine ⟨trivial, trivial, ?_, ⟨i, hget, rfl, ?_⟩, trivial, trivial, trivial, trivial⟩
  · simp only [GetNetworkState]
    rw [GetModifiableManagedState_set _ _ _ _ (by
      intro a ha
      rw [hget] at ha
      cases ha
      rfl), hi]
    simp [deref, List.getElem?_set_self hilt]
  · intro j hj
    exact List.getElem?_set_ne (fun e => hj e.symm)

/-- C13 (witness): the address `10.0.0.2` is set twice on `/service/1`; the
second call, with the address already stored, notifies again. -/
theorem UpdateNetworkServiceIPAddress_sets_witness :
    (UpdateNetworkServiceIPAddress (mkHandler [wifi1, cellular2] "") "/service/1"
        "10.0.0.2").state.GetNetworkState "/service/1" =
      some { wifi1 with ip_address := "10.0.0.2" } ∧
    (UpdateNetworkServiceIPAddress
        (UpdateNetworkServiceIPAddress (mkHandler [wifi1, cellular2] "") "/service/1"
          "10.0.0.2").state "/service/1" "10.0.0.2").events =
      [Event.NetworkServiceChanged { wifi1 with ip_address := "10.0.0.2" }] :=
  ⟨by decide,
    (UpdateNetworkServiceIPAddress_sets
      (UpdateNetworkServiceIPAddress (mkHandler [wifi1, cellular2] "") "/service/1"
        "10.0.0.2").state "/service/1" "10.0.0.2" { wifi1 with ip_address := "10.0.0.2" }
      (by decide)).1⟩

/-! ### Claims about the technology sets -/

theorem mem_foldl_insert (technologies : ListValue) (acc : Finset String) (t : String) :
    t ∈ technologies.foldl (fun s technology => insert technology.asString s) acc ↔
      t ∈ acc ∨ t ∈ technologies.map Value.asString := by
  induction technologies generalizing acc with
  | nil => simp
  | cons v rest ih =>
    simp only [List.foldl_cons, List.map_cons, List.mem_cons]
    rw [ih]
    simp only [Finset.mem_insert]
    tauto

/-- C14: after `UpdateAvailableTechnologies(L)`, `TechnologyAvailable(t)` is
true exactly for the names `t` that occur in `L`, whatever the set held before,
and after `UpdateEnabledTechnologies(L)`, `TechnologyEnabled(t)` is true exactly
for the names in `L`; in particular, after
`UpdateAvailableTechnologies(["wifi", "cellular"])`, `wifi` is available and
`ethernet` is not. -/
theorem UpdateTechnologies_replace (self : NetworkStateHandler P) (technologies : ListValue)
    (t : String) :
    ((self.UpdateAvailableTechnologies technologies).TechnologyAvailable t = true ↔
      t ∈ technologies.map Value.asString) ∧
    ((self.UpdateEnabledTechnologies technologies).TechnologyEnabled t = true ↔
      t ∈ technologies.map Value.asString) ∧
    (∀ names : List String,
      ((self.UpdateAvailableTechnologies (names.map Value.string)).TechnologyAvailable t = true ↔
        t ∈ names) ∧
      ((self.UpdateEnabledTechnologies (names.map Value.string)).TechnologyEnabled t = true ↔
        t ∈ names)) ∧
    (self.UpdateAvailableTechnologies
        [Value.string "wifi", Value.string "cellular"]).TechnologyAvailable "wifi" = true ∧
    (self.UpdateAvailableTechnologies
        [Value.string "wifi", Value.string "cellular"]).TechnologyAvailable "ethernet" = false := by
  have ha : ∀ (L : ListValue) (u : String),
      (self.UpdateAvailableTechnologies L).TechnologyAvailable u = true ↔
        u ∈ L.map Value.asString := by
    intro L u
    simp [TechnologyAvailable, UpdateAvailableTechnologies, mem_foldl_insert]
  have he : ∀ (L : ListValue) (u : String),
      (self.UpdateEnabledTechnologies L).TechnologyEnabled u = true ↔
        u ∈ L.map Value.asString := by
    intro L u
    simp [TechnologyEnabled, UpdateEnabledTechnologies, mem_foldl_insert]
  have hnames : ∀ names : List String,
      (names.map Value.string).map Value.asString = names := by
    intro names
    induction names with
    | nil => rfl
    | cons n rest ih => simpa [Value.asString, Value.GetAsString] using ih
  refine ⟨ha _ _, he _ _, ?_, ?_, ?_⟩
  · intro names
    rw [ha, he, hnames]
    exact ⟨Iff.rfl, Iff.rfl⟩
  · rw [ha]
    decide
  · cases hv : (self.UpdateAvailableTechnologies
        [Value.string "wifi", Value.string "cellular"]).TechnologyAvailable "ethernet" with
    | false => rfl
    | true =>
      rw [ha] at hv
      exact absurd hv (by decide)

/-! ### Claims about the queries -/

/-- C15 (failing input): the services table holds one service, connecting and
of type `ethernet`.  `ConnectingNetworkByType("")` returns it: with an empty
`type`, the test `type != kTypeEthernet` holds for every service, so the
ethernet service is not skipped. -/
theorem ConnectingNetworkByType_empty_returns_ethernet :
    ethernetConnecting1.IsConnectingState specExternal = true ∧
    ethernetConnecting1.type specExternal = "ethernet" ∧
    specExternal.kTypeEthernet = "ethernet" ∧
    ConnectingNetworkByType specExternal (mkHandler [ethernetConnecting1] "") "" =
      some ethernetConnecting1 := by
  decide

theorem ConnectingNetworkByType_loop_empty (X : External P) (hE : X.kTypeEthernet ≠ "")
    (l : List (ManagedState P)) :
    ConnectingNetworkByType.loop X "" l =
      ((l.dropWhile (fun network => network.IsConnectedState X)).head?).filter
        (fun network => network.IsConnectingState X) := by
  induction l with
  | nil => rfl
  | cons network rest ih =>
    have hne : ("" : String) ≠ X.kTypeEthernet := fun h => hE h.symm
    have hem : ("" : String).isEmpty = true := by decide
    by_cases hc : network.IsConnectedState X = true
    · simp [ConnectingNetworkByType.loop, hc, ih, List.dropWhile_cons]
    · by_cases hg : network.IsConnectingState X = true
      · simp [ConnectingNetworkByType.loop, hc, hg, hne, hem, List.dropWhile_cons, Option.filter]
      · simp [ConnectingNetworkByType.loop, hc, hg, List.dropWhile_cons, Option.filter]

/-! ### The hardware address -/

theorem toUpper_not_lower (c : Char) : c.toUpper.isLower = false := by
  unfold Char.toUpper
  simp only []
  split
  · rename_i h
    have h3 : c = Char.ofNat c.toNat := (Char.ofNat_toNat c).symm
    generalize c.toNat = n at h h3 ⊢
    obtain ⟨h1, h2⟩ := h
    interval_cases n <;> decide
  · rename_i h
    cases hl : c.isLower with
    | false => rfl
    | true =>
      have : 97 ≤ c.toNat ∧ c.toNat ≤ 122 := by
        simp only [Char.isLower, Bool.and_eq_true, decide_eq_true_eq, ge_iff_le] at hl
        exact ⟨hl.1, hl.2⟩
      exact absurd this h

theorem StringToUpperASCII_not_lower (s : String) :
    ∀ c ∈ (StringToUpperASCII s).data, c.isLower = false := by
  intro c hc
  simp only [StringToUpperASCII, List.mem_map] at hc
  obtain ⟨d, _, hd⟩ := hc
  rw [← hd]
  exact toUpper_not_lower d

/-- C17: `HardwareAddressForType(type)` returns the ASCII-upper-cased hardware
address of the device whose path is the device path of the service returned by
`ConnectedNetworkByType(type)`; it returns the empty string when there is no
such connected service or no device with that path; its result never contains a
lower-case ASCII letter. -/
theorem HardwareAddressForType_spec (X : External P) (self : NetworkStateHandler P)
    (type : String) :
    (∀ network device : ManagedState P, ConnectedNetworkByType X self type = some network →
      self.GetDeviceState (network.device_path X) = some device →
      HardwareAddressForType X self type = StringToUpperASCII (device.mac_address X)) ∧
    (ConnectedNetworkByType X self type = none → HardwareAddressForType X self type = "") ∧
    (∀ network : ManagedState P, ConnectedNetworkByType X self type = some network →
      self.GetDeviceState (network.device_path X) = none →
      HardwareAddressForType X self type = "") ∧
    (∀ c ∈ (HardwareAddressForType X self type).data, c.isLower = false) ∧
    (∀ s : String, (StringToUpperASCII s).data = s.data.map Char.toUpper) := by
  refine ⟨?_, ?_, ?_, ?_, fun s => rfl⟩
  · intro network device hn hd
    simp only [HardwareAddressForType, hn, hd]
  · intro hn
    simp only [HardwareAddressForType, hn]
    rfl
  · intro network hn hd
    simp only [HardwareAddressForType, hn, hd]
    rfl
  · exact StringToUpperASCII_not_lower _

/-- C17 (witness): the connected wifi service `/service/1` sits on the device
`/device/1`, whose address is stored in lower case. -/
theorem HardwareAddressForType_spec_witness :
    ConnectedNetworkByType specExternal (mkHandlerWithDevices [wifiOnDevice1] [device1]) "wifi" =
      some wifiOnDevice1 ∧
    (mkHandlerWithDevices [wifiOnDevice1] [device1]).GetDeviceState
        (wifiOnDevice1.device_path specExternal) = some device1 ∧
    HardwareAddressForType specExternal (mkHandlerWithDevices [wifiOnDevice1] [device1]) "wifi" =
      "AABBCCDDEEFF" :=
  ⟨by decide, by decide,
    ((HardwareAddressForType_spec specExternal
      (mkHandlerWithDevices [wifiOnDevice1] [device1]) "wifi").1 wifiOnDevice1 device1
      (by decide) (by decide)).trans (by decide)⟩

theorem intercalate_cons (sep x : List UInt8) (xs : List (List UInt8)) :
    List.intercalate sep (x :: xs) = x ++ (xs.map (fun g => sep ++ g)).flatten := by
  induction xs generalizing x with
  | nil => simp [List.intercalate]
  | cons y ys ih =>
    have h := ih y
    simp only [List.intercalate] at h ⊢
    simp only [List.intersperse, List.flatten_cons, List.map_cons]
    rw [h]
    simp

theorem loop_even (n : Nat) :
    ∀ (a : List UInt8) (i : Nat) (result : List UInt8), a.length = 2 * n → i ≠ 0 →
      i % 2 = 0 →
      FormattedHardwareAddressForType.loop a i result =
        result ++ ((twoCharGroups a).map (fun g => [':'.toUInt8] ++ g)).flatten ∧
      (FormattedHardwareAddressForType.loop a i result).length = result.length + 3 * n := by
  induction n with
  | zero =>
    intro a i result ha _ _
    have : a = [] := List.length_eq_zero.mp (by simpa using ha)
    subst this
    simp [FormattedHardwareAddressForType.loop, twoCharGroups]
  | succ k ih =>
    intro a i result ha hi0 hi2
    match a, ha with
    | c1 :: c2 :: rest, ha =>
      have hrest : rest.length = 2 * k := by
        simp only [List.length_cons] at ha
        omega
      have hodd : ¬ (i + 1 ≠ 0 ∧ (i + 1) % 2 = 0) := by omega
      have hstep : FormattedHardwareAddressForType.loop (c1 :: c2 :: rest) i result =
          FormattedHardwareAddressForType.loop rest (i + 1 + 1)
            (((result ++ [':'.toUInt8]) ++ [c1]) ++ [c2]) := by
        simp only [FormattedHardwareAddressForType.loop, hi0, hi2, hodd, ne_eq, not_false_eq_true,
          and_self, if_true, if_false]
      obtain ⟨h1, h2⟩ := ih rest (i + 1 + 1) (((result ++ [':'.toUInt8]) ++ [c1]) ++ [c2]) hrest
        (by omega) (by omega)
      rw [hstep]
      constructor
      · rw [h1]
        simp [twoCharGroups]
      · rw [h2]
        simp only [List.length_append, List.length_singleton]
        omega

theorem loop_last (a : List UInt8) :
    ∀ (i : Nat) (result : List UInt8), a ≠ [] →
      (FormattedHardwareAddressForType.loop a i result).getLast? = a.getLast? := by
  induction a with
  | nil => intro i result h; exact absurd rfl h
  | cons c rest ih =>
    intro i result _
    cases rest with
    | nil => simp [FormattedHardwareAddressForType.loop]
    | cons d rest2 =>
      have := ih (i + 1) ((if i ≠ 0 ∧ i % 2 = 0 then result ++ [':'.toUInt8] else result) ++ [c])
        (by simp)
      simp only [FormattedHardwareAddressForType.loop] at this ⊢
      rw [this]
      simp [List.getLast?_cons_cons]

theorem loop_zero (n : Nat) (a : List UInt8) (ha : a.length = 2 * n) :
    FormattedHardwareAddressForType.loop a 0 [] =
        List.intercalate [':'.toUInt8] (twoCharGroups a) ∧
    (FormattedHardwareAddressForType.loop a 0 []).head? = a.head? ∧
    (FormattedHardwareAddressForType.loop a 0 []).getLast? = a.getLast? ∧
    (0 < n → (FormattedHardwareAddressForType.loop a 0 []).length = 3 * n - 1) := by
  match a, n, ha with
  | [], n, ha =>
    have : n = 0 := by simpa using ha.symm
    subst this
    simp [FormattedHardwareAddressForType.loop, twoCharGroups, List.intercalate]
  | [c], n, ha => simp at ha; omega
  | c1 :: c2 :: rest, n, ha =>
    have hrest : rest.length = 2 * (n - 1) := by
      simp only [List.length_cons] at ha
      omega
    have hstep : FormattedHardwareAddressForType.loop (c1 :: c2 :: rest) 0 [] =
        FormattedHardwareAddressForType.loop rest 2 (([] ++ [c1]) ++ [c2]) := by
      simp [FormattedHardwareAddressForType.loop]
    obtain ⟨h1, h2⟩ := loop_even (n - 1) rest 2 (([] ++ [c1]) ++ [c2]) hrest (by omega)
      (by omega)
    refine ⟨?_, ?_, ?_, ?_⟩
    · rw [hstep, h1, twoCharGroups, intercalate_cons]
      simp
    · rw [hstep, h1]
      simp
    · exact loop_last (c1 :: c2 :: rest) 0 [] (by simp)
    · intro hn
      rw [hstep, h2]
      simp only [List.nil_append, List.length_append, List.length_singleton]
      omega

/-- C16: let `a` be the raw hardware address returned by
`HardwareAddressForType(type)`, as the sequence of `char`s (bytes) the
`std::string` holds.  `FormattedHardwareAddressForType(type)` returns `a`
unchanged when the length of `a` is odd.  When the length is even it returns the
consecutive two-character groups of `a` joined by single `:` characters: the
result begins and ends with the first and the last character of `a` (no
separator is put in front or behind), it is empty for an empty `a`, and it has
`3 * n - 1` characters when `a` has `2 * n > 0`; `AABBCCDDEEFF` gives
`AA:BB:CC:DD:EE:FF`. -/
theorem FormattedHardwareAddressForType_format (X : External P) (self : NetworkStateHandler P)
    (type : String) (a : List UInt8)
    (ha : stdString (HardwareAddressForType X self type) = a) :
    (a.length % 2 = 1 → FormattedHardwareAddressForType X self type = a) ∧
    (a.length % 2 = 0 →
      FormattedHardwareAddressForType X self type =
        List.intercalate [':'.toUInt8] (twoCharGroups a) ∧
      (FormattedHardwareAddressForType X self type).head? = a.head? ∧
      (FormattedHardwareAddressForType X self type).getLast? = a.getLast? ∧
      ∀ n : Nat, 0 < n → a.length = 2 * n →
        (FormattedHardwareAddressForType X self type).length = 3 * n - 1) ∧
    (a = [] → FormattedHardwareAddressForType X self type = []) ∧
    (a = stdString "AABBCCDDEEFF" →
      FormattedHardwareAddressForType X self type = stdString "AA:BB:CC:DD:EE:FF") := by
  have hdef : FormattedHardwareAddressForType X self type =
      if a.length % 2 ≠ 0 then a else FormattedHardwareAddressForType.loop a 0 [] := by
    simp only [FormattedHardwareAddressForType, ha]
  refine ⟨?_, ?_, ?_, ?_⟩
  · intro hodd
    rw [hdef]
    simp [hodd]
  · intro heven
    have hlen : a.length = 2 * (a.length / 2) := by omega
    obtain ⟨h1, h2, h3, h4⟩ := loop_zero (a.length / 2) a hlen
    have hf : FormattedHardwareAddressForType X self type =
        FormattedHardwareAddressForType.loop a 0 [] := by
      rw [hdef]
      simp [heven]
    rw [hf]
    refine ⟨h1, h2, h3, ?_⟩
    intro n hn han
    have : a.length / 2 = n := by omega
    rw [this] at h4
    exact h4 hn
  · intro he
    rw [hdef, he]
    rfl
  · intro he
    rw [hdef, he]
    decide

/-- C16 (witness): the device address `aabbccddeeff` of the connected wifi
service is returned as `AABBCCDDEEFF` and formatted as `AA:BB:CC:DD:EE:FF`; an
address of two two-byte characters has four `char`s and is split between
them. -/
theorem FormattedHardwareAddressForType_format_witness :
    stdString (HardwareAddressForType specExternal
        (mkHandlerWithDevices [wifiOnDevice1] [device1]) "wifi") = stdString "AABBCCDDEEFF" ∧
    FormattedHardwareAddressForType specExternal
        (mkHandlerWithDevices [wifiOnDevice1] [device1]) "wifi" =
      stdString "AA:BB:CC:DD:EE:FF" ∧
    stdString (HardwareAddressForType specExternal
        (mkHandlerWithDevices [wifiOnDevice1] [deviceTwoByte1]) "wifi") =
      [0xC3, 0xA9, 0xC3, 0xA9] ∧
    FormattedHardwareAddressForType specExternal
        (mkHandlerWithDevices [wifiOnDevice1] [deviceTwoByte1]) "wifi" =
      [0xC3, 0xA9, 0x3A, 0xC3, 0xA9] :=
  ⟨by decide,
    (FormattedHardwareAddressForType_format specExternal
      (mkHandlerWithDevices [wifiOnDevice1] [device1]) "wifi" (stdString "AABBCCDDEEFF")
      (by decide)).2.2.2 rfl,
    by decide,
    ((FormattedHardwareAddressForType_format specExternal
      (mkHandlerWithDevices [wifiOnDevice1] [deviceTwoByte1]) "wifi" [0xC3, 0xA9, 0xC3, 0xA9]
      (by decide)).2.1 (by decide)).1.trans (by decide)⟩

/-- C18: `ActiveNetwork()` returns the first entry of the services table when
the table is not empty and that entry is in a connected state, and returns no
network in every other case (empty table, or first entry not connected); a
network it returns is always the first entry. -/
theorem ActiveNetwork_first (X : External P) (self : NetworkStateHandler P) :
    ActiveNetwork X self =
      (self.network_list_.head?).filter (fun network => network.IsConnectedState X) ∧
    (∀ (network : ManagedState P) (rest : List (ManagedState P)),
      self.network_list_ = network :: rest → network.IsConnectedState X = true →
      ActiveNetwork X self = some network) ∧
    (self.network_list_ = [] → ActiveNetwork X self = none) ∧
    (∀ (network : ManagedState P) (rest : List (ManagedState P)),
      self.network_list_ = network :: rest → network.IsConnectedState X = false →
      ActiveNetwork X self = none) ∧
    (∀ network : ManagedState P, ActiveNetwork X self = some network →
      self.network_list_.head? = some network ∧ network.IsConnectedState X = true) := by
  have hmain : ActiveNetwork X self =
      (self.network_list_.head?).filter (fun network => network.IsConnectedState X) := by
    unfold ActiveNetwork
    cases hl : self.network_list_ with
    | nil => rfl
    | cons network rest =>
      cases hc : network.IsConnectedState X <;> simp [hc, Option.filter]
  refine ⟨hmain, ?_, ?_, ?_, ?_⟩
  · intro network rest hl hc
    rw [hmain, hl]
    simp [Option.filter, hc]
  · intro hl
    rw [hmain, hl]
    rfl
  · intro network rest hl hc
    rw [hmain, hl]
    simp [Option.filter, hc]
  · intro network hn
    rw [hmain] at hn
    cases hh : self.network_list_.head? with
    | none => rw [hh] at hn; simp [Option.filter] at hn
    | some first =>
      rw [hh] at hn
      simp only [Option.filter] at hn
      split at hn
      · rename_i hc
        cases hn
        exact ⟨rfl, hc⟩
      · cases hn

theorem lookup_spec (l : List (ManagedState P)) (path : String) :
    deref l (GetModifiableManagedState l path) =
      l.find? (fun managed => decide (managed.path = path)) ∧
    ((deref l (GetModifiableManagedState l path)).isSome = true ↔
      ∃ managed ∈ l, managed.path = path) ∧
    (deref l (GetModifiableManagedState l path) = none ↔
      ∀ managed ∈ l, managed.path ≠ path) ∧
    (∀ found : ManagedState P, deref l (GetModifiableManagedState l path) = some found →
      found.path = path ∧
      ∃ before after : List (ManagedState P), l = before ++ found :: after ∧
        ∀ managed ∈ before, managed.path ≠ path) := by
  rw [deref_GetModifiableManagedState]
  refine ⟨rfl, ?_, ?_, ?_⟩
  · simp
  · simp
  · intro found hf
    rw [List.find?_eq_some] at hf
    obtain ⟨hp, before, after, hl, hb⟩ := hf
    refine ⟨by simpa using hp, before, after, hl, ?_⟩
    intro managed hm
    simpa using hb managed hm

/-- C19: the lookup by path never fails.  `GetNetworkState(path)` and
`GetDeviceState(path)` return an entity if and only if some entity of their
table has exactly that path (strings are compared as they are, so a path that
differs in letter case is not found); the entity returned is the first one of
the table with that path, and its path is the requested one; otherwise the
result is absent. -/
theorem GetState_by_path (self : NetworkStateHandler P) (path : String) :
    (self.GetNetworkState path =
        self.network_list_.find? (fun managed => decide (managed.path = path)) ∧
      ((self.GetNetworkState path).isSome = true ↔
        ∃ managed ∈ self.network_list_, managed.path = path) ∧
      (self.GetNetworkState path = none ↔ ∀ managed ∈ self.network_list_, managed.path ≠ path) ∧
      (∀ found : ManagedState P, self.GetNetworkState path = some found →
        found.path = path ∧
        ∃ before after : List (ManagedState P), self.network_list_ = before ++ found :: after ∧
          ∀ managed ∈ before, managed.path ≠ path)) ∧
    (self.GetDeviceState path =
        self.device_list_.find? (fun managed => decide (managed.path = path)) ∧
      ((self.GetDeviceState path).isSome = true ↔
        ∃ managed ∈ self.device_list_, managed.path = path) ∧
      (self.GetDeviceState path = none ↔ ∀ managed ∈ self.device_list_, managed.path ≠ path) ∧
      (∀ found : ManagedState P, self.GetDeviceState path = some found →
        found.path = path ∧
        ∃ before after : List (ManagedState P), self.device_list_ = before ++ found :: after ∧
          ∀ managed ∈ before, managed.path ≠ path)) ∧
    (mkHandler [wifi1] "").GetNetworkState "/service/1" = some wifi1 ∧
    (mkHandler [wifi1] "").GetNetworkState "/Service/1" = none :=
  ⟨lookup_spec self.network_list_ path, lookup_spec self.device_list_ path, by decide,
    by decide⟩

/-- C20: `GetDeviceStateByType(type)` returns the first device of the devices
table, in table order, whose type equals the given type, and returns no device
exactly when no device of the table has that type. -/
theorem GetDeviceStateByType_first (X : External P) (self : NetworkStateHandler P)
    (type : String) :
    GetDeviceStateByType X self type =
      self.device_list_.find? (fun device => decide (device.type X = type)) ∧
    (GetDeviceStateByType X self type = none ↔
      ∀ device ∈ self.device_list_, device.type X ≠ type) ∧
    (∀ found : ManagedState P, GetDeviceStateByType X self type = some found →
      found.type X = type ∧
      ∃ before after : List (ManagedState P), self.device_list_ = before ++ found :: after ∧
        ∀ device ∈ before, device.type X ≠ type) := by
  have hmain : GetDeviceStateByType X self type =
      self.device_list_.find? (fun device => decide (device.type X = type)) := by
    unfold GetDeviceStateByType
    induction self.device_list_ with
    | nil => rfl
    | cons device rest ih =>
      by_cases h : device.type X = type <;>
        simp [GetDeviceStateByType.loop, h, ih]
  rw [hmain]
  refine ⟨rfl, by simp, ?_⟩
  intro found hf
  rw [List.find?_eq_some] at hf
  obtain ⟨hp, before, after, hl, hb⟩ := hf
  refine ⟨by simpa using hp, before, after, hl, ?_⟩
  intro device hd
  simpa using hb device hd

/-! ### The typing discipline of the managed lists -/

theorem createMap_mem (l : List (ManagedState P)) (k : String) (v : ManagedState P)
    (h : UpdateManagedList.createMap l k = some v) : v ∈ l := by
  unfold UpdateManagedList.createMap at h
  rw [foldl_update_apply] at h
  simp only [Option.or_none] at h
  exact List.mem_reverse.mp (List.mem_of_find?_eq_some h)

theorem managedFor_managed_type (X : External P) (shill : ShillPropertyHandler)
    (type : ManagedType) (found : Option (ManagedState P)) (path : String)
    (h : ∀ m, found = some m → m.managed_type = type) :
    (UpdateManagedList.managedFor X shill type found path).managed_type = type := by
  cases found with
  | none => rw [managedFor_none]; rfl
  | some m => rw [managedFor_some]; exact h m rfl

theorem foldl_body_managed_type (X : External P) (shill : ShillPropertyHandler)
    (type : ManagedType) (entries : ListValue) (st : UpdateLoop P)
    (hmap : ∀ k v, st.managed_map k = some v → v.managed_type = type)
    (hlist : ∀ m ∈ st.managed_list, m.managed_type = type) :
    ∀ m ∈ (entries.foldl (UpdateManagedList.body X shill type) st).managed_list,
      m.managed_type = type := by
  induction entries generalizing st with
  | nil => simpa using hlist
  | cons e es ih =>
    simp only [List.foldl_cons]
    apply ih
    · intro k v hk
      rw [body_managed_map] at hk
      split at hk
      · cases hk
      · exact hmap k v hk
    · intro m hm
      rw [body_managed_list, List.mem_append, List.mem_singleton] at hm
      rcases hm with hm | hm
      · exact hlist m hm
      · rw [hm]
        exact managedFor_managed_type X shill type _ _ (fun v hv => hmap _ v hv)

theorem UpdateManagedList_wellTyped (X : External P) (shill : ShillPropertyHandler)
    (self : NetworkStateHandler P) (type : ManagedType) (entries : ListValue)
    (h : WellTyped self) : WellTyped (UpdateManagedList X shill self type entries).state := by
  intro t managed hm
  by_cases ht : t = type
  · subst ht
    rw [UpdateManagedList_list] at hm
    exact foldl_body_managed_type X shill t entries _
      (fun k v hk => h t v (createMap_mem _ k v hk)) (by simp) managed hm
  · have hsame : (UpdateManagedList X shill self type entries).state.GetManagedList t =
        self.GetManagedList t := by
      cases t <;> cases type <;> first | exact absurd rfl ht | rfl
    rw [hsame] at hm
    exact h t managed hm

/-! ### Claims about `GetNetworkList` and the order of notifications -/

/-- C21: whatever the output list held before, `GetNetworkList` leaves in it
exactly the entities of the services table, in table order and with the same
length, and issues exactly one scan request to the transport; it notifies no
observer and, being `const`, leaves the handler state (both tables, both
technology sets and the stored active path) unchanged. -/
theorem GetNetworkList_snapshot (self : NetworkStateHandler P) (list : List (ManagedState P)) :
    (GetNetworkList.call self list).2 = self.network_list_ ∧
    (GetNetworkList.call self list).2.length = self.network_list_.length ∧
    (∀ i : Nat, (GetNetworkList.call self list).2[i]? = self.network_list_[i]?) ∧
    (∀ other : List (ManagedState P),
      (GetNetworkList.call self other).2 = (GetNetworkList.call self list).2) ∧
    (GetNetworkList.call self list).1.requests = [Request.RequestScan] ∧
    (GetNetworkList.call self list).1.events = [] ∧
    (GetNetworkList.call self list).1.state.network_list_ = self.network_list_ ∧
    (GetNetworkList.call self list).1.state.device_list_ = self.device_list_ ∧
    (GetNetworkList.call self list).1.state.available_technologies_ =
      self.available_technologies_ ∧
    (GetNetworkList.call self list).1.state.enabled_technologies_ =
      self.enabled_technologies_ ∧
    (GetNetworkList.call self list).1.state.active_network_path_ = self.active_network_path_ ∧
    (self.GetNetworkList list).1 = self.network_list_ ∧
    (self.GetNetworkList list).2 = [Request.RequestScan] := by
  have h := GetNetworkList_fst self list
  have hc : (GetNetworkList.call self list).2 = self.network_list_ := h
  refine ⟨hc, by rw [hc], fun i => by rw [hc], fun other => ?_, rfl, rfl, rfl, rfl, rfl, rfl,
    rfl, h, rfl⟩
  exact (GetNetworkList_fst self other).trans hc.symm

/-- C22: the observer events of `ManagedStateListChanged(NETWORK)` are either
exactly `[NetworkListChanged]` or exactly `[NetworkListChanged,
ActiveNetworkChanged]`, the list notification carrying the services table and
coming first, so that no per-service event is emitted;
`ManagedStateListChanged(DEVICE)` emits exactly `[DeviceListChanged]` and leaves
the stored active path, like the rest of the state, unchanged. -/
theorem ManagedStateListChanged_events (self : NetworkStateHandler P) :
    ((ManagedStateListChanged self ManagedType.MANAGED_TYPE_NETWORK).events =
        [Event.NetworkListChanged self.network_list_] ∨
      (ManagedStateListChanged self ManagedType.MANAGED_TYPE_NETWORK).events =
        [Event.NetworkListChanged self.network_list_,
          Event.ActiveNetworkChanged self.network_list_.head?]) ∧
    (∀ e ∈ (ManagedStateListChanged self ManagedType.MANAGED_TYPE_NETWORK).events,
      Event.isNetworkServiceChanged e = false ∧ Event.isActiveNetworkStateChanged e = false) ∧
    ((ManagedStateListChanged self ManagedType.MANAGED_TYPE_NETWORK).events.head? =
      some (Event.NetworkListChanged self.network_list_)) ∧
    (ManagedStateListChanged self ManagedType.MANAGED_TYPE_DEVICE).events =
      [Event.DeviceListChanged] ∧
    (ManagedStateListChanged self ManagedType.MANAGED_TYPE_DEVICE).state.active_network_path_ =
      self.active_network_path_ ∧
    (ManagedStateListChanged self ManagedType.MANAGED_TYPE_DEVICE).state = self := by
  refine ⟨?_, ?_, ?_, rfl, rfl, rfl⟩
  · rw [ManagedStateListChanged_network]
    by_cases h : firstPath self.network_list_ = self.active_network_path_ <;> simp [h]
  · rw [ManagedStateListChanged_network]
    by_cases h : firstPath self.network_list_ = self.active_network_path_ <;>
      simp [h, Event.isNetworkServiceChanged, Event.isActiveNetworkStateChanged]
  · rw [ManagedStateListChanged_network]
    by_cases h : firstPath self.network_list_ = self.active_network_path_ <;> simp [h]

/-! ### `ConnectedNetworkByType` -/

theorem ConnectedNetworkByType_loop_eq (X : External P) (type : String)
    (l : List (ManagedState P)) (h : ConnectedFirst X l) :
    ConnectedNetworkByType.loop X type l =
      l.find? (fun network => network.IsConnectedState X && decide (network.type X = type)) := by
  induction l with
  | nil => rfl
  | cons network rest ih =>
    unfold ConnectedFirst at h
    rw [List.pairwise_cons] at h
    obtain ⟨hhead, hrest⟩ := h
    by_cases hc : network.IsConnectedState X = true
    · by_cases ht : network.type X = type
      · simp [ConnectedNetworkByType.loop, hc, ht]
      · simp [ConnectedNetworkByType.loop, hc, ht, ih hrest]
    · have hnone : rest.find? (fun network =>
          network.IsConnectedState X && decide (network.type X = type)) = none := by
        rw [List.find?_eq_none]
        intro x hx hp
        simp only [Bool.and_eq_true, decide_eq_true_eq] at hp
        exact hc (hhead x hx hp.1)
      simp [ConnectedNetworkByType.loop, hc, hnone]

/-- C23: on a services table in connected-first order,
`ConnectedNetworkByType(type)` returns the first service of the whole table
that is connected and has that type; it returns no service exactly when the
table holds no connected service of that type; a service it returns is
connected and of the requested type. -/
theorem ConnectedNetworkByType_first (X : External P) (self : NetworkStateHandler P)
    (type : String) (h : ConnectedFirst X self.network_list_) :
    ConnectedNetworkByType X self type =
      self.network_list_.find? (fun network =>
        network.IsConnectedState X && decide (network.type X = type)) ∧
    (ConnectedNetworkByType X self type = none ↔
      ∀ network ∈ self.network_list_,
        ¬ (network.IsConnectedState X = true ∧ network.type X = type)) ∧
    (∀ found : ManagedState P, ConnectedNetworkByType X self type = some found →
      found.IsConnectedState X = true ∧ found.type X = type ∧
      ∃ before after : List (ManagedState P), self.network_list_ = before ++ found :: after ∧
        ∀ network ∈ before,
          ¬ (network.IsConnectedState X = true ∧ network.type X = type)) := by
  have hmain := ConnectedNetworkByType_loop_eq X type self.network_list_ h
  unfold ConnectedNetworkByType
  rw [hmain]
  refine ⟨rfl, by simp, ?_⟩
  intro found hf
  rw [List.find?_eq_some] at hf
  obtain ⟨hp, before, after, hl, hb⟩ := hf
  simp only [Bool.and_eq_true, decide_eq_true_eq] at hp
  refine ⟨hp.1, hp.2, before, after, hl, ?_⟩
  intro network hn hboth
  have := hb network hn
  simp [hboth.1, hboth.2] at this

/-- C23 (witness): the table `[online1, wifiOnline2, association3]` is in
connected-first order; the query for `wifi` skips the connected service without
a type and returns the second entry. -/
theorem ConnectedNetworkByType_first_witness :
    ConnectedFirst specExternal
      (mkHandler [online1, wifiOnline2, association3] "").network_list_ ∧
    ConnectedNetworkByType specExternal (mkHandler [online1, wifiOnline2, association3] "")
      "wifi" = some wifiOnline2 :=
  ⟨by decide,
    (ConnectedNetworkByType_first specExternal
      (mkHandler [online1, wifiOnline2, association3] "") "wifi" (by decide)).1.trans
      (by decide)⟩

/-! ### The observation flag and the idempotence of the reconciliation -/

theorem mem_UpdateManagedList_cases (X : External P) (shill : ShillPropertyHandler)
    (self : NetworkStateHandler P) (type : ManagedType) (entries : ListValue)
    (m : ManagedState P)
    (hm : m ∈ (UpdateManagedList X shill self type entries).state.GetManagedList type) :
    m = UpdateManagedList.managedFor X shill type
        (UpdateManagedList.createMap (self.GetManagedList type) m.path) m.path ∨
    m = UpdateManagedList.managedFor X shill type none m.path := by
  have hin : m.path ∈ entries.map Value.asString := by
    rw [← UpdateManagedList_map_path X shill self type entries]
    exact List.mem_map_of_mem _ hm
  have hfil : m ∈ ((UpdateManagedList X shill self type entries).state.GetManagedList type).filter
      (fun x => decide (x.path = m.path)) := by
    rw [List.mem_filter]
    exact ⟨hm, by simp⟩
  rw [UpdateManagedList_list, foldl_body_filter X shill type m.path entries _
    (keyedByPath_createMap _)] at hfil
  simp only [List.filter_nil, List.nil_append, hin, if_true, List.mem_cons] at hfil
  rcases hfil with h | h
  · exact Or.inl h
  · exact Or.inr (List.eq_of_mem_replicate h)

/-- C24: the observation flag is monotone under reconciliation.  For a table
with pairwise-distinct paths and any incoming list, after `UpdateManagedList` a
surviving entity (a path of the table that is in the incoming list) is the old
record with the flag `is_observed` equal to its flag before the update or-ed
with what the transport reports for its path, so a flag that was true stays
true; every entity of the table afterwards is either such a survivor or a newly
created object whose flag is exactly what the transport reports for its path,
and an entity whose path was not in the table is always of the second kind. -/
theorem UpdateManagedList_is_observed (X : External P) (shill : ShillPropertyHandler)
    (self : NetworkStateHandler P) (type : ManagedType) (entries : ListValue)
    (hT : ((self.GetManagedList type).map (fun m => m.path)).Nodup) :
    (∀ (p : String) (old : ManagedState P), self.GetManagedState type p = some old →
      p ∈ entries.map Value.asString →
      ∃ m : ManagedState P,
        (UpdateManagedList X shill self type entries).state.GetManagedState type p = some m ∧
        m = { old with is_observed := old.is_observed || shill.IsObservingNetwork p } ∧
        m.is_observed = (old.is_observed || shill.IsObservingNetwork p) ∧
        (old.is_observed = true → m.is_observed = true)) ∧
    (∀ m ∈ (UpdateManagedList X shill self type entries).state.GetManagedList type,
      (∃ old ∈ self.GetManagedList type, old.path = m.path ∧
        m = { old with is_observed := old.is_observed || shill.IsObservingNetwork m.path }) ∨
      (m = { ManagedState.Create X type m.path with
              is_observed := shill.IsObservingNetwork m.path } ∧
        m.is_observed = shill.IsObservingNetwork m.path)) ∧
    (∀ m ∈ (UpdateManagedList X shill self type entries).state.GetManagedList type,
      m.path ∉ (self.GetManagedList type).map (fun old => old.path) →
      m = { ManagedState.Create X type m.path with
            is_observed := shill.IsObservingNetwork m.path } ∧
      m.is_observed = shill.IsObservingNetwork m.path) := by
  have hnew : ∀ m : ManagedState P,
      m = UpdateManagedList.managedFor X shill type none m.path →
      m = { ManagedState.Create X type m.path with
            is_observed := shill.IsObservingNetwork m.path } ∧
      m.is_observed = shill.IsObservingNetwork m.path := by
    intro m hm
    rw [managedFor_none] at hm
    have h1 : m = { ManagedState.Create X type m.path with
        is_observed := shill.IsObservingNetwork m.path } := by
      rw [hm]
      simp [raiseObserved, ManagedState.Create]
    exact ⟨h1, congrArg (fun x => x.is_observed) h1⟩
  refine ⟨?_, ?_, ?_⟩
  · intro p old hold hin
    have hfind : (self.GetManagedList type).find? (fun m => decide (m.path = p)) = some old := by
      rw [← GetManagedState_eq_find]; exact hold
    refine ⟨{ old with is_observed := old.is_observed || shill.IsObservingNetwork p },
      ?_, rfl, rfl, ?_⟩
    · rw [GetManagedState_eq_find, ← List.filter_head?, UpdateManagedList_list,
        foldl_body_filter X shill type p entries _ (keyedByPath_createMap _)]
      simp only [List.filter_nil, List.nil_append, hin, if_true, List.head?_cons]
      rw [createMap_apply _ _ hT, hfind, managedFor_some]
      rfl
    · intro ho
      simp [ho]
  · intro m hm
    rcases mem_UpdateManagedList_cases X shill self type entries m hm with h | h
    · cases hc : UpdateManagedList.createMap (self.GetManagedList type) m.path with
      | none =>
        rw [hc] at h
        exact Or.inr (hnew m h)
      | some old =>
        rw [hc, managedFor_some] at h
        have hpath : old.path = m.path := keyedByPath_createMap _ _ _ hc
        exact Or.inl ⟨old, createMap_mem _ _ _ hc, hpath, h⟩
    · exact Or.inr (hnew m h)
  · intro m hm hnot
    rcases mem_UpdateManagedList_cases X shill self type entries m hm with h | h
    · cases hc : UpdateManagedList.createMap (self.GetManagedList type) m.path with
      | none =>
        rw [hc] at h
        exact hnew m h
      | some old =>
        have hpath : old.path = m.path := keyedByPath_createMap _ _ _ hc
        exact absurd (hpath ▸ List.mem_map_of_mem (fun old => old.path)
          (createMap_mem _ _ _ hc)) hnot
    · exact hnew m h

/-- C24 (witness): the table `[wifi1, cellular2]` (flags false and true) updated
with `[/service/2, /service/1, /service/3]` while the transport observes only
`/service/1`: the flag of `/service/1` is raised and that of `/service/2`
stays true. -/
theorem UpdateManagedList_is_observed_witness :
    (((mkHandler [wifi1, cellular2] "").GetManagedList ManagedType.MANAGED_TYPE_NETWORK).map
        (fun m => m.path)).Nodup ∧
    (UpdateManagedList specExternal (shillObserving ["/service/1"])
        (mkHandler [wifi1, cellular2] "") ManagedType.MANAGED_TYPE_NETWORK
        [Value.string "/service/2", Value.string "/service/1",
          Value.string "/service/3"]).state.network_list_.map (fun m => m.is_observed) =
      [true, true, false] ∧
    ∃ m : ManagedState PropertyBag,
      (UpdateManagedList specExternal (shillObserving ["/service/1"])
        (mkHandler [wifi1, cellular2] "") ManagedType.MANAGED_TYPE_NETWORK
        [Value.string "/service/2", Value.string "/service/1",
          Value.string "/service/3"]).state.GetManagedState ManagedType.MANAGED_TYPE_NETWORK
          "/service/2" = some m ∧
      m = { cellular2 with is_observed :=
              cellular2.is_observed ||
                (shillObserving ["/service/1"]).IsObservingNetwork "/service/2" } ∧
      m.is_observed = (cellular2.is_observed ||
        (shillObserving ["/service/1"]).IsObservingNetwork "/service/2") ∧
      (cellular2.is_observed = true → m.is_observed = true) :=
  ⟨by decide, by decide,
    (UpdateManagedList_is_observed specExternal (shillObserving ["/service/1"])
      (mkHandler [wifi1, cellular2] "") ManagedType.MANAGED_TYPE_NETWORK
      [Value.string "/service/2", Value.string "/service/1", Value.string "/service/3"]
      (by decide)).1 "/service/2" cellular2 (by decide) (by decide)⟩

theorem setManagedList_GetManagedList (self : NetworkStateHandler P) (type : ManagedType) :
    self.setManagedList type (self.GetManagedList type) = self := by
  cases type <;> rfl

theorem UpdateManagedList_state (X : External P) (shill : ShillPropertyHandler)
    (self : NetworkStateHandler P) (type : ManagedType) (entries : ListValue) :
    (UpdateManagedList X shill self type entries).state =
      self.setManagedList type
        ((UpdateManagedList X shill self type entries).state.GetManagedList type) := by
  unfold UpdateManagedList
  cases type <;> rfl

theorem raiseObserved_managedFor (X : External P) (shill : ShillPropertyHandler)
    (type : ManagedType) (found : Option (ManagedState P)) (path : String) :
    raiseObserved (UpdateManagedList.managedFor X shill type found path)
        (shill.IsObservingNetwork path) =
      UpdateManagedList.managedFor X shill type found path ∧
    UpdateManagedList.needsProperties shill
      (some (UpdateManagedList.managedFor X shill type found path)) path = false := by
  unfold UpdateManagedList.managedFor raiseObserved UpdateManagedList.needsProperties
    ManagedState.set_is_observed
  cases ho : shill.IsObservingNetwork path <;> simp

/-- C25: the reconciliation is idempotent on the model.  For any table and an
incoming list with pairwise-distinct paths, with the same transport answers,
applying `UpdateManagedList(type, entries)` a second time right after the first
leaves the whole handler state, and so the table with its entities, their
order, flags and properties, exactly as the first application left it, and
issues no property-fetch request (and no notification). -/
theorem UpdateManagedList_idempotent (X : External P) (shill : ShillPropertyHandler)
    (self : NetworkStateHandler P) (type : ManagedType) (entries : ListValue)
    (hE : (entries.map Value.asString).Nodup) :
    (UpdateManagedList X shill (UpdateManagedList X shill self type entries).state type
        entries).state = (UpdateManagedList X shill self type entries).state ∧
    ((UpdateManagedList X shill (UpdateManagedList X shill self type entries).state type
        entries).state.GetManagedList type =
      (UpdateManagedList X shill self type entries).state.GetManagedList type) ∧
    (UpdateManagedList X shill (UpdateManagedList X shill self type entries).state type
        entries).requests = [] ∧
    (UpdateManagedList X shill (UpdateManagedList X shill self type entries).state type
        entries).events = [] := by
  have hT1 : (((UpdateManagedList X shill self type entries).state.GetManagedList type).map
      (fun m => m.path)).Nodup := by
    rw [UpdateManagedList_map_path]
    exact hE
  -- what the map of the second application holds for an incoming path
  have hmap : ∀ e ∈ entries,
      UpdateManagedList.createMap
          ((UpdateManagedList X shill self type entries).state.GetManagedList type) e.asString =
        some (UpdateManagedList.managedFor X shill type
          (UpdateManagedList.createMap (self.GetManagedList type) e.asString) e.asString) := by
    intro e he
    have hin : e.asString ∈ entries.map Value.asString := List.mem_map_of_mem _ he
    rw [createMap_apply _ _ hT1, ← List.filter_head?, UpdateManagedList_list,
      foldl_body_filter X shill type e.asString entries _ (keyedByPath_createMap _)]
    simp [hin]
  have h2 := foldl_body_of_nodup X shill type entries
    { managed_map := UpdateManagedList.createMap
        ((UpdateManagedList X shill self type entries).state.GetManagedList type),
      managed_list := [], requests := [] } hE
  have h1 := (foldl_body_of_nodup X shill type entries
    { managed_map := UpdateManagedList.createMap (self.GetManagedList type),
      managed_list := [], requests := [] } hE).1
  simp only [List.nil_append] at h1 h2
  have hlist : (UpdateManagedList X shill (UpdateManagedList X shill self type entries).state
        type entries).state.GetManagedList type =
      (UpdateManagedList X shill self type entries).state.GetManagedList type := by
    have hl1 : (UpdateManagedList X shill self type entries).state.GetManagedList type =
        entries.map (fun e => UpdateManagedList.managedFor X shill type
          (UpdateManagedList.createMap (self.GetManagedList type) e.asString) e.asString) := by
      rw [UpdateManagedList_list, h1]
    rw [UpdateManagedList_list X shill (UpdateManagedList X shill self type entries).state type
      entries, h2.1]
    conv_rhs => rw [hl1]
    apply List.map_congr_left
    intro e he
    rw [hmap e he, managedFor_some]
    exact (raiseObserved_managedFor X shill type _ _).1
  refine ⟨?_, hlist, ?_, rfl⟩
  · rw [UpdateManagedList_state, hlist, setManagedList_GetManagedList]
  · have hreq : (UpdateManagedList X shill (UpdateManagedList X shill self type entries).state
        type entries).requests =
        (entries.foldl (UpdateManagedList.body X shill type)
          { managed_map := UpdateManagedList.createMap
              ((UpdateManagedList X shill self type entries).state.GetManagedList type),
            managed_list := [], requests := [] }).requests := rfl
    rw [hreq, h2.2]
    have : entries.filter (fun e => UpdateManagedList.needsProperties shill
        (UpdateManagedList.createMap
          ((UpdateManagedList X shill self type entries).state.GetManagedList type) e.asString)
        e.asString) = [] := by
      rw [List.filter_eq_nil_iff]
      intro e he
      rw [hmap e he, (raiseObserved_managedFor X shill type _ _).2]
      simp
    rw [this]
    rfl

/-- C25 (witness): the table `[wifi1, cellular2]` reconciled twice with
`[/service/3, /service/1]` while the transport observes both paths: the second
application asks for nothing and leaves the table of the first. -/
theorem UpdateManagedList_idempotent_witness :
    ([Value.string "/service/3", Value.string "/service/1"].map Value.asString).Nodup ∧
    (UpdateManagedList specExternal (shillObserving ["/service/1", "/service/3"])
        (mkHandler [wifi1, cellular2] "") ManagedType.MANAGED_TYPE_NETWORK
        [Value.string "/service/3", Value.string "/service/1"]).requests =
      [Request.RequestProperties ManagedType.MANAGED_TYPE_NETWORK "/service/3",
       Request.RequestProperties ManagedType.MANAGED_TYPE_NETWORK "/service/1"] ∧
    (UpdateManagedList specExternal (shillObserving ["/service/1", "/service/3"])
        (UpdateManagedList specExternal (shillObserving ["/service/1", "/service/3"])
          (mkHandler [wifi1, cellular2] "") ManagedType.MANAGED_TYPE_NETWORK
          [Value.string "/service/3", Value.string "/service/1"]).state
        ManagedType.MANAGED_TYPE_NETWORK
        [Value.string "/service/3", Value.string "/service/1"]).requests = [] :=
  ⟨by decide, by decide,
    (UpdateManagedList_idempotent specExternal (shillObserving ["/service/1", "/service/3"])
      (mkHandler [wifi1, cellular2] "") ManagedType.MANAGED_TYPE_NETWORK
      [Value.string "/service/3", Value.string "/service/1"] (by decide)).2.2.1⟩

/-! ### The frame of the update entry points -/

/-- C26: `UpdateManagedList` on one kind leaves the table of the other kind,
both technology sets and the stored active path unchanged and emits no observer
notification; `UpdateAvailableTechnologies` changes nothing but the set of
available technologies and `UpdateEnabledTechnologies` nothing but the set of
enabled technologies: each leaves the other set, both tables and the stored
active path unchanged. -/
theorem update_entry_points_frame (X : External P) (shill : ShillPropertyHandler)
    (self : NetworkStateHandler P) (entries : ListValue) :
    ((UpdateManagedList X shill self ManagedType.MANAGED_TYPE_NETWORK entries).state.device_list_ =
      self.device_list_) ∧
    ((UpdateManagedList X shill self ManagedType.MANAGED_TYPE_DEVICE entries).state.network_list_ =
      self.network_list_) ∧
    (∀ type other : ManagedType, other ≠ type →
      (UpdateManagedList X shill self type entries).state.GetManagedList other =
        self.GetManagedList other) ∧
    (∀ type : ManagedType,
      (UpdateManagedList X shill self type entries).state.available_technologies_ =
        self.available_technologies_ ∧
      (UpdateManagedList X shill self type entries).state.enabled_technologies_ =
        self.enabled_technologies_ ∧
      (UpdateManagedList X shill self type entries).state.active_network_path_ =
        self.active_network_path_ ∧
      (UpdateManagedList X shill self type entries).events = []) ∧
    ((self.UpdateAvailableTechnologies entries).enabled_technologies_ =
        self.enabled_technologies_ ∧
      (self.UpdateAvailableTechnologies entries).network_list_ = self.network_list_ ∧
      (self.UpdateAvailableTechnologies entries).device_list_ = self.device_list_ ∧
      (self.UpdateAvailableTechnologies entries).active_network_path_ =
        self.active_network_path_) ∧
    ((self.UpdateEnabledTechnologies entries).available_technologies_ =
        self.available_technologies_ ∧
      (self.UpdateEnabledTechnologies entries).network_list_ = self.network_list_ ∧
      (self.UpdateEnabledTechnologies entries).device_list_ = self.device_list_ ∧
      (self.UpdateEnabledTechnologies entries).active_network_path_ =
        self.active_network_path_) := by
  refine ⟨rfl, rfl, ?_, ?_, ⟨rfl, rfl, rfl, rfl⟩, ⟨rfl, rfl, rfl, rfl⟩⟩
  · intro type other hne
    cases type <;> cases other <;> first | exact absurd rfl hne | rfl
  · intro type
    cases type <;> exact ⟨rfl, rfl, rfl, rfl⟩

end NetworkStateHandler

end chromeos
